import Mathlib

/-!
The nanomdm DynamoDB storage backend: command queue, certificate binding and
enrollment records.

A shallow embedding of `storage/dynamo` (`dynamo.go`, `queue.go`, `certauth.go`,
`bstoken.go`).

The Go receiver `DSDynamoTable` is a handle on a remote DynamoDB table.  Here the
handle is modelled together with what it points at: the rows of the table, the
outcome of the backend calls still to come (a fault schedule), and the wall clock
read by `time.Now()`.  Every operation is a function from such a state to a result
and the next state.

Go `error` values are `Option String` (`none` is `nil`); Go `string` and `[]byte`
are `String` (the conversions `string(b)` and `[]byte(s)` are the identity).

The backend follows the key-value contract the store relies on: `PutItem` is an
upsert with full overwrite, `GetItem` reads by exact key and reports a missing
row as an output without item (not as an error), `Query` returns every row of a
partition that passes the filter, in the order of the table, and `DeleteItem`
removes by key, given a key map of exactly the key attributes.  Attribute names
are matched exactly when an item is decoded.
-/

namespace Dynamo

/-! ## The key-value backend -/

/-- DynamoDB attribute values that occur in the table (`types.AttributeValue`). -/
inductive AttributeValue where
  | S (s : String)
  | N (n : Int)
  | BOOL (b : Bool)
  | NULL
  deriving DecidableEq, Repr

/-- A stored item.  The table schema (`New`) declares `pk` (hash key) and `sk`
(range key) as string attributes, so every item carries both; `attrs` holds the
remaining attributes by name. -/
structure Item where
  pk : String
  sk : String
  attrs : List (String × AttributeValue)
  deriving DecidableEq, Repr

/-- The store: table rows in backend order, the fault schedule of the backend
(one flag per backend call still to come, `true` meaning that call fails; calls
beyond the schedule succeed), and the clock. -/
structure DSDynamoTable where
  rows : List Item
  faults : List Bool
  clock : Nat
  deriving DecidableEq, Repr

/-- Consume the outcome of the next backend call. -/
def nextFault (s : DSDynamoTable) : Bool × DSDynamoTable :=
  match s.faults with
  | [] => (false, s)
  | b :: rest => (b, { s with faults := rest })

/-- Reading of `time.Now().String()`: the clock advances with every reading. -/
def timeNow (s : DSDynamoTable) : String × DSDynamoTable :=
  (toString s.clock, { s with clock := s.clock + 1 })

/-- Two items address the same row. -/
def sameKey (a b : Item) : Bool :=
  decide (a.pk = b.pk) && decide (a.sk = b.sk)

/-- Upsert on the rows: a full overwrite of the row with the item's key, or a new
row when the key is not present. -/
def putRow (item : Item) (rows : List Item) : List Item :=
  if rows.any (sameKey item) then
    rows.map (fun r => if sameKey item r then item else r)
  else
    rows ++ [item]

/-- Lookup by exact key. -/
def getRow (pk sk : String) (rows : List Item) : Option Item :=
  rows.find? (fun r => decide (r.pk = pk) && decide (r.sk = sk))

/-- Attribute of an item by name. -/
def Item.attr (it : Item) (name : String) : Option AttributeValue :=
  it.attrs.lookup name

/-- The call `DynamoDbClient.PutItem`. -/
def PutItem (s : DSDynamoTable) (item : Item) : Option String × DSDynamoTable :=
  let (failed, s1) := nextFault s
  if failed then (some "PutItem failed", s1)
  else (none, { s1 with rows := putRow item s1.rows })

/-- The call `DynamoDbClient.GetItem`: an error, or the item under the key; a key
with no row is not an error, the output then has no item. -/
def GetItem (s : DSDynamoTable) (pk sk : String) : Except String (Option Item) × DSDynamoTable :=
  let (failed, s1) := nextFault s
  if failed then (.error "GetItem failed", s1)
  else (.ok (getRow pk sk s1.rows), s1)

/-- The call `DynamoDbClient.Query` with key condition `pk = :pkey` and a filter
on the items of that partition. -/
def Query (s : DSDynamoTable) (pkey : String) (filter : Item → Bool) :
    Except String (List Item) × DSDynamoTable :=
  let (failed, s1) := nextFault s
  if failed then (.error "Query failed", s1)
  else (.ok (s1.rows.filter (fun r => decide (r.pk = pkey) && filter r)), s1)

/-- The call `DynamoDbClient.DeleteItem` with the given map as `Key`.  The key
schema of the table is `(pk, sk)`: a `Key` map that carries any further attribute
does not match the schema, the call is rejected and nothing is removed.
Removing an absent key is not an error. -/
def DeleteItem (s : DSDynamoTable) (key : Item) : Option String × DSDynamoTable :=
  let (failed, s1) := nextFault s
  if failed then (some "DeleteItem failed", s1)
  else if key.attrs ≠ [] then
    (some "ValidationException: The provided key element does not match the schema", s1)
  else
    let kept := s1.rows.filter (fun r => not (decide (r.pk = key.pk) && decide (r.sk = key.sk)))
    (none, { s1 with rows := kept })

/-! ## Marshalling (`attributevalue`) -/

/-- Decoding of one attribute into a Go `string` field: an absent attribute leaves
the zero value, `NULL` sets it, a string is copied, any other type is an
`UnmarshalTypeError`. -/
def decodeString (av : Option AttributeValue) : Except String String :=
  match av with
  | none => .ok ""
  | some (.S v) => .ok v
  | some .NULL => .ok ""
  | some (.N _) => .error "UnmarshalTypeError: number"
  | some (.BOOL _) => .error "UnmarshalTypeError: bool"

/-- Encoding of a field tagged `omitempty`. -/
def omitEmpty (name value : String) : List (String × AttributeValue) :=
  if value = "" then [] else [(name, .S value)]

/-! ## `queue.go` -/

def subNotNow : String := "QueueNotNow"
def subQueue : String := "Queue"
def subDone : String := "QueueDone"
def subInactive : String := "QueueInactive"

structure dsCommand where
  Queue : String
  Command : String
  Payload : String
  Status : String
  LastUpdated : String
  Result : String
  deriving DecidableEq, Repr

/-- The value of `var c dsCommand`. -/
def dsCommand.zero : dsCommand := ⟨"", "", "", "", "", ""⟩

/-- The function `attributevalue.MarshalMap` on a `dsCommand` (tags `pk`, `sk`,
`bstoken`, `status`, `last_updated`, `result`, none of them `omitempty`). -/
def dsCommand.marshal (c : dsCommand) : Item :=
  { pk := c.Queue, sk := c.Command,
    attrs := [("bstoken", .S c.Payload), ("status", .S c.Status),
              ("last_updated", .S c.LastUpdated), ("result", .S c.Result)] }

/-- The function `attributevalue.UnmarshalMap` into a zero `dsCommand`; an output
without item decodes to the zero value, without error.  The callers drop the
error value, so one message stands for every decoding error. -/
def dsCommand.unmarshal (it : Option Item) : Except String dsCommand :=
  match it with
  | none => .ok dsCommand.zero
  | some i =>
    match decodeString (i.attr "bstoken"), decodeString (i.attr "status"),
        decodeString (i.attr "last_updated"), decodeString (i.attr "result") with
    | .ok payload, .ok status, .ok lastUpdated, .ok result =>
      .ok ⟨i.pk, i.sk, payload, status, lastUpdated, result⟩
    | _, _, _, _ => .error "UnmarshalTypeError"

/-- The function `attributevalue.UnmarshalListOfMaps` into `[]dsCommand`: every
item is decoded, the first failure fails the whole list. -/
def unmarshalCommands : List Item → Except String (List dsCommand)
  | [] => .ok []
  | i :: rest =>
    match dsCommand.unmarshal (some i) with
    | .error e => .error e
    | .ok c =>
      match unmarshalCommands rest with
      | .error e => .error e
      | .ok cs => .ok (c :: cs)

/-! ## Types of package `mdm` used by the store -/

/-- Modelled from the spec: `mdm.Request` is declared outside the storage package;
the store reads the enrollment identifier `ID` and the raw bytes of the verified
client certificate. -/
structure Request where
  ID : String
  Certificate : String
  deriving DecidableEq, Repr

/-- Modelled from the spec: `mdm.Command` is declared outside the storage package;
the store reads the command identifier and the raw payload, an opaque blob that
is persisted and returned verbatim. -/
structure Command where
  CommandUUID : String
  Raw : String
  deriving DecidableEq, Repr

/-- Modelled from the spec: `mdm.CommandResults` is declared outside the storage
package; the store reads the command identifier, the reported status and the raw
result payload. -/
structure CommandResults where
  CommandUUID : String
  Status : String
  Raw : String
  deriving DecidableEq, Repr

/-! ## `dynamo.go` -/

/-- The method `AddItem`, on the marshalled item (`MarshalMap` does not fail on the
record types of this package): the error of `PutItem`, if any, is returned. -/
def AddItem (s : DSDynamoTable) (item : Item) : Option String × DSDynamoTable :=
  PutItem s item

/-- The method `GetSingleItemPKSK`.  The Go function fills `result` and returns a
boolean; here `some v` is `true` with `result = v`, and `none` is `false`.  It
is `false` when `GetItem` fails or when the output does not decode, and `true`
otherwise, also when the output holds no item (`result` is then the zero value).
The parameter `unmarshal` is `UnmarshalMap` at the type of `result`. -/
def GetSingleItemPKSK {α : Type} (unmarshal : Option Item → Except String α)
    (s : DSDynamoTable) (pk sk : String) : Option α × DSDynamoTable :=
  match GetItem s pk sk with
  | (.error _, s1) => (none, s1)
  | (.ok out, s1) =>
    match unmarshal out with
    | .error _ => (none, s1)
    | .ok v => (some v, s1)

/-! ## `queue.go`: operations -/

/-- The filter expression `#DDB_status = :queue Or #DDB_status = :queueNotNow`. -/
def filterQueueOrNotNow (r : Item) : Bool :=
  decide (r.attr "status" = some (.S "Queue")) ||
    decide (r.attr "status" = some (.S "QueueNotNow"))

/-- The filter expression `#DDB_status = :status` with `:status = "Queue"`. -/
def filterQueue (r : Item) : Bool :=
  decide (r.attr "status" = some (.S "Queue"))

/-- The method `getAllCommands`: `some commands` is `true` with the slice filled,
`none` is `false` (query or decoding failed). -/
def getAllCommands (s : DSDynamoTable) (id : String) (skipNotNow : Bool) :
    Option (List dsCommand) × DSDynamoTable :=
  if !skipNotNow then
    match Query s ("queue#" ++ id) filterQueueOrNotNow with
    | (.error _, s1) => (none, s1)
    | (.ok items, s1) =>
      match unmarshalCommands items with
      | .error _ => (none, s1)
      | .ok commands => (some commands, s1)
  else
    match Query s ("queue#" ++ id) filterQueue with
    | (.error _, s1) => (none, s1)
    | (.ok items, s1) =>
      match unmarshalCommands items with
      | .error _ => (none, s1)
      | .ok commands => (some commands, s1)

/-- One iteration of the loop of `EnqueueCommand`. -/
def enqueueOne (command : Command) (acc : List (String × String) × DSDynamoTable)
    (id : String) : List (String × String) × DSDynamoTable :=
  let (idErrs, s) := acc
  let (now, s1) := timeNow s
  let row : dsCommand :=
    { Queue := "queue#" ++ id, Command := command.CommandUUID, Payload := command.Raw,
      LastUpdated := now, Status := subQueue, Result := "" }
  match AddItem s1 row.marshal with
  | (some err, s2) => ((id, err) :: idErrs.filter (fun e => decide (e.1 ≠ id)), s2)
  | (none, s2) => (idErrs, s2)

/-- The method `EnqueueCommand`: the per-ID error map (as an association list) and
the error, which is always `nil`. -/
def EnqueueCommand (s : DSDynamoTable) (ids : List String) (command : Command) :
    (List (String × String) × Option String) × DSDynamoTable :=
  let (idErrs, s1) := ids.foldl (enqueueOne command) ([], s)
  ((idErrs, none), s1)

/-- The method `StoreCommandReport`. -/
def StoreCommandReport (s : DSDynamoTable) (r : Request) (report : CommandResults) :
    Option String × DSDynamoTable :=
  if report.Status = "Idle" then (none, s)
  else
    match GetSingleItemPKSK dsCommand.unmarshal s ("queue#" ++ r.ID) report.CommandUUID with
    | (some currentCommand, s1) =>
      if currentCommand.Payload = "" then (none, s1)
      else if currentCommand.Queue = "QueueDone" then (none, s1)
      else
        let (now, s2) := timeNow s1
        let updated : dsCommand :=
          { currentCommand with LastUpdated := now, Status := report.Status, Result := report.Raw }
        AddItem s2 updated.marshal
    | (none, s1) => (some "unable to find command in database", s1)

/-- The method `RetrieveNextCommand`.  The parameter `DecodeCommand` is
`mdm.DecodeCommand`, declared outside the storage package, with its Go result
pair (command or `nil`, error or `nil`). -/
def RetrieveNextCommand (DecodeCommand : String → Option Command × Option String)
    (s : DSDynamoTable) (r : Request) (skipNotNow : Bool) :
    (Option Command × Option String) × DSDynamoTable :=
  match getAllCommands s r.ID skipNotNow with
  | (some (command :: _), s1) => (DecodeCommand command.Payload, s1)
  | (_, s1) => ((none, none), s1)

/-- One iteration of the loop of `ClearQueue`; the error of `AddItem` is dropped. -/
def clearOne (s : DSDynamoTable) (command : dsCommand) : DSDynamoTable :=
  let (now, s1) := timeNow s
  let updated : dsCommand := { command with LastUpdated := now, Status := subInactive }
  (AddItem s1 updated.marshal).2

/-- The method `ClearQueue`; it returns `nil` on every path. -/
def ClearQueue (s : DSDynamoTable) (r : Request) : Option String × DSDynamoTable :=
  match getAllCommands s r.ID false with
  | (some commands, s1) => (none, commands.foldl clearOne s1)
  | (none, s1) => (none, s1)

/-! ## `certauth.go` -/

def CertHashFile : String := "DeviceToCertHash"

structure dynamoDeviceToCertHash where
  Device : String
  Category : String
  Hash : String
  deriving DecidableEq, Repr

structure dynamoCertHashtoDevice where
  Hash : String
  Device : String
  deriving DecidableEq, Repr

/-- The function `MarshalMap` on a `dynamoDeviceToCertHash` (tags `pk`, `sk`, `hash`). -/
def dynamoDeviceToCertHash.marshal (d : dynamoDeviceToCertHash) : Item :=
  { pk := d.Device, sk := d.Category, attrs := [("hash", .S d.Hash)] }

/-- The function `UnmarshalMap` into a zero `dynamoDeviceToCertHash`. -/
def dynamoDeviceToCertHash.unmarshal (it : Option Item) : Except String dynamoDeviceToCertHash :=
  match it with
  | none => .ok ⟨"", "", ""⟩
  | some i =>
    match decodeString (i.attr "hash") with
    | .ok hash => .ok ⟨i.pk, i.sk, hash⟩
    | .error e => .error e

/-- The function `MarshalMap` on a `dynamoCertHashtoDevice` (tags `pk`, `sk`). -/
def dynamoCertHashtoDevice.marshal (d : dynamoCertHashtoDevice) : Item :=
  { pk := d.Hash, sk := d.Device, attrs := [] }

/-- The function `UnmarshalMap` into a zero `dynamoCertHashtoDevice`. -/
def dynamoCertHashtoDevice.unmarshal (it : Option Item) : Except String dynamoCertHashtoDevice :=
  match it with
  | none => .ok ⟨"", ""⟩
  | some i => .ok ⟨i.pk, i.sk⟩

/-- The method `EnrollmentHasCertHash`. -/
def EnrollmentHasCertHash (s : DSDynamoTable) (r : Request) :
    (Bool × Option String) × DSDynamoTable :=
  match GetSingleItemPKSK dynamoDeviceToCertHash.unmarshal s ("device#" ++ r.ID) CertHashFile with
  | (some deviceToCert, s1) =>
    if deviceToCert.Hash ≠ "" then ((true, none), s1)
    else ((false, some "no device hash"), s1)
  | (none, s1) => ((false, some "no device hash"), s1)

/-- The method `HasCertHash`. -/
def HasCertHash (s : DSDynamoTable) (_r : Request) (hash : String) :
    (Bool × Option String) × DSDynamoTable :=
  match GetSingleItemPKSK dynamoCertHashtoDevice.unmarshal s ("hash#" ++ hash) CertHashFile with
  | (some hashToDevice, s1) =>
    if hashToDevice.Hash ≠ "" then ((true, none), s1)
    else ((false, none), s1)
  | (none, s1) => ((false, none), s1)

/-- The method `IsCertHashAssociated`. -/
def IsCertHashAssociated (s : DSDynamoTable) (r : Request) (hash : String) :
    (Bool × Option String) × DSDynamoTable :=
  match GetSingleItemPKSK dynamoDeviceToCertHash.unmarshal s ("device#" ++ r.ID) CertHashFile with
  | (some deviceToCert, s1) =>
    if deviceToCert.Hash = hash then ((true, none), s1)
    else ((false, none), s1)
  | (none, s1) => ((false, none), s1)

/-- The method `AssociateCertHash`: the forward row, then the reverse row. -/
def AssociateCertHash (s : DSDynamoTable) (r : Request) (hash : String) :
    Option String × DSDynamoTable :=
  let deviceHash : dynamoDeviceToCertHash :=
    { Device := "device#" ++ r.ID, Category := CertHashFile, Hash := hash }
  match AddItem s deviceHash.marshal with
  | (some err, s1) => (some err, s1)
  | (none, s1) =>
    let hashToDevice : dynamoCertHashtoDevice := { Hash := "hash#" ++ hash, Device := r.ID }
    AddItem s1 hashToDevice.marshal

/-! ## Auxiliary definitions for the statements -/

/-- The next backend call fails. -/
def nextCallFails (s : DSDynamoTable) : Bool := (nextFault s).1

/-- The backend call number `k` from now (counting from zero) fails. -/
def nthCallFails (s : DSDynamoTable) (k : Nat) : Bool := s.faults.getD k false

/-- Every backend call still to come succeeds. -/
def Healthy (s : DSDynamoTable) : Prop := ∀ b ∈ s.faults, b = false

/-- The filter `getAllCommands` sends with its query. -/
def pendingFilter (skipNotNow : Bool) (x : Item) : Bool :=
  if skipNotNow = true then filterQueue x else filterQueueOrNotNow x

/-- The row `EnqueueCommand` writes for device `id`. -/
def queuedRow (id : String) (command : Command) (now : String) : dsCommand :=
  { Queue := "queue#" ++ id, Command := command.CommandUUID, Payload := command.Raw,
    LastUpdated := now, Status := subQueue, Result := "" }

/-- The row `StoreCommandReport` writes over the current one. -/
def reportedRow (c : dsCommand) (now : String) (report : CommandResults) : dsCommand :=
  { c with LastUpdated := now, Status := report.Status, Result := report.Raw }

/-- The row `ClearQueue` writes over a scanned one. -/
def clearedRow (c : dsCommand) (now : String) : dsCommand :=
  { c with LastUpdated := now, Status := subInactive }

/-- The store after `EnqueueCommand([id], command)`. -/
def afterEnqueue (s : DSDynamoTable) (id : String) (command : Command) : DSDynamoTable :=
  (EnqueueCommand s [id] command).2

/-- The device `id` is absent from the error map of `EnqueueCommand([id], command)`. -/
def enqueueSucceeds (s : DSDynamoTable) (id : String) (command : Command) : Prop :=
  (EnqueueCommand s [id] command).1.1.lookup id = none

/-- The status attribute of the row under a key, if there is such a row. -/
def statusOf (s : DSDynamoTable) (pk sk : String) : Option AttributeValue :=
  (getRow pk sk s.rows).bind (fun row => row.attr "status")

/-- A stand-in for `mdm.DecodeCommand` on which the operations can be evaluated:
it rejects the empty payload and otherwise returns a command carrying the
payload. -/
def sampleDecode (raw : String) : Option Command × Option String :=
  if raw = "" then (none, some "EOF") else (some ⟨"decoded", raw⟩, none)

/-- An empty table behind a backend that never fails. -/
def emptyTable : DSDynamoTable := ⟨[], [], 0⟩

/-- A device. -/
def device : Request := ⟨"ABC-123", ""⟩

/-- Two commands with distinct identifiers and non-empty payloads. -/
def commandOne : Command := ⟨"c1", "payload-1"⟩

def commandTwo : Command := ⟨"c2", "payload-2"⟩

/-- A command whose raw payload is empty. -/
def commandBlank : Command := ⟨"c1", ""⟩

/-- The table after `commandOne` was enqueued for `device`. -/
def oneQueued : DSDynamoTable := (EnqueueCommand emptyTable ["ABC-123"] commandOne).2

/-- The table after `commandOne` and then `commandTwo` were enqueued for `device`. -/
def twoQueued : DSDynamoTable := (EnqueueCommand oneQueued ["ABC-123"] commandTwo).2

/-- The table after `commandOne` and `commandTwo` were enqueued for `device` and
`commandOne` was reported as `Acknowledged`. -/
def oneDoneOneQueued : DSDynamoTable :=
  (StoreCommandReport twoQueued device ⟨"c1", "Acknowledged", "result"⟩).2

/-- The table after `commandOne` was enqueued for `device` and the queue of
`device` was cleared. -/
def oneCleared : DSDynamoTable := (ClearQueue oneQueued device).2

/-- The table after `commandOne` was enqueued for `device` and reported as
`Acknowledged`. -/
def oneDone : DSDynamoTable :=
  (StoreCommandReport oneQueued device ⟨"c1", "Acknowledged", "result"⟩).2

/-- An empty table behind a backend whose next call fails. -/
def failingTable : DSDynamoTable := ⟨[], [true], 0⟩

/-- The table after the hash `h1` was associated with `device`. -/
def oneAssociated : DSDynamoTable := (AssociateCertHash emptyTable device "h1").2

/-- The table after `commandBlank` and then `commandTwo` were enqueued for `device`. -/
def blankQueued : DSDynamoTable :=
  (EnqueueCommand (EnqueueCommand emptyTable ["ABC-123"] commandBlank).2 ["ABC-123"] commandTwo).2

/-! ## `dynamo.go`, `bstoken.go`, `push.go`: enrollment records -/

def IdentityCertFilename : String := "Identity.pem"
def TokenUpdateFilename : String := "TokenUpdate.plist"
def UnlockTokenFilename : String := "UnlockToken.dat"
def BootstrapTokenFile : String := "BootstrapToken"
def TokenUpdateTallyFilename : String := "TokenUpdate.tally"

/-- Modelled from the spec: `mdm.Authenticate` is declared outside the storage
package; the store reads the serial number of the check-in message. -/
structure Authenticate where
  SerialNumber : String
  deriving DecidableEq, Repr

/-- Modelled from the spec: `mdm.TokenUpdate` is declared outside the storage
package; the store reads the unlock token and the raw token-update payload. -/
structure TokenUpdate where
  UnlockToken : String
  Raw : String
  deriving DecidableEq, Repr

set_option linter.dupNamespace false in
/-- Modelled from the spec: `mdm.BootstrapToken` is declared outside the storage
package; it carries the token bytes. -/
structure BootstrapToken where
  BootstrapToken : String
  deriving DecidableEq, Repr

/-- Modelled from the spec: `mdm.SetBootstrapToken` is declared outside the
storage package; the store reads the bootstrap token of the message. -/
structure SetBootstrapToken where
  BootstrapToken : BootstrapToken
  deriving DecidableEq, Repr

structure dsGenericItem where
  PK : String
  SK : String
  Body : String
  deriving DecidableEq, Repr

structure dsIdentityCert where
  Device : String
  Category : String
  Cert : String
  deriving DecidableEq, Repr

structure dsTokenUnlock where
  Device : String
  Category : String
  Token : String
  deriving DecidableEq, Repr

structure dsTokenUpdate where
  Device : String
  Category : String
  Token : String
  deriving DecidableEq, Repr

/-- The tally record; `Tally` is a Go `int`, a 64-bit two's complement integer. -/
structure dsTokenUpdateTally where
  Device : String
  Category : String
  Tally : Int
  deriving DecidableEq, Repr

structure dynamoBSToken where
  Device : String
  Category : String
  BSToken : String
  deriving DecidableEq, Repr

/-- Wrap-around of Go `int` arithmetic into the 64-bit signed range. -/
def wrapInt64 (n : Int) : Int := (n + 2 ^ 63) % 2 ^ 64 - 2 ^ 63

/-- Decoding of one attribute into a Go `int` field: an absent attribute leaves
the zero value, `NULL` sets it, a number that fits 64 bits is copied, anything
else is an error. -/
def decodeInt (av : Option AttributeValue) : Except String Int :=
  match av with
  | none => .ok 0
  | some .NULL => .ok 0
  | some (.N n) =>
    if -(2 ^ 63) ≤ n ∧ n < 2 ^ 63 then .ok n else .error "UnmarshalError: out of range"
  | some (.S _) => .error "UnmarshalTypeError: string"
  | some (.BOOL _) => .error "UnmarshalTypeError: bool"

/-- The function `MarshalMap` on a `dsGenericItem` (tags `pk`, `sk`, `body,omitempty`). -/
def dsGenericItem.marshal (d : dsGenericItem) : Item :=
  { pk := d.PK, sk := d.SK, attrs := omitEmpty "body" d.Body }

/-- The function `MarshalMap` on a `dsIdentityCert` (tags `pk`, `sk`, `cert,omitempty`). -/
def dsIdentityCert.marshal (d : dsIdentityCert) : Item :=
  { pk := d.Device, sk := d.Category, attrs := omitEmpty "cert" d.Cert }

/-- The function `MarshalMap` on a `dsTokenUnlock` (tags `pk`, `sk`, `token,omitempty`). -/
def dsTokenUnlock.marshal (d : dsTokenUnlock) : Item :=
  { pk := d.Device, sk := d.Category, attrs := omitEmpty "token" d.Token }

/-- The function `MarshalMap` on a `dsTokenUpdate` (tags `pk`, `sk`, `token,omitempty`). -/
def dsTokenUpdate.marshal (d : dsTokenUpdate) : Item :=
  { pk := d.Device, sk := d.Category, attrs := omitEmpty "token" d.Token }

/-- The function `MarshalMap` on a `dsTokenUpdateTally` (tags `pk`, `sk`,
`tally,omitempty`: a zero tally is left out). -/
def dsTokenUpdateTally.marshal (d : dsTokenUpdateTally) : Item :=
  { pk := d.Device, sk := d.Category,
    attrs := if d.Tally = 0 then [] else [("tally", .N d.Tally)] }

/-- The function `UnmarshalMap` into a zero `dsTokenUpdateTally`. -/
def dsTokenUpdateTally.unmarshal (it : Option Item) : Except String dsTokenUpdateTally :=
  match it with
  | none => .ok ⟨"", "", 0⟩
  | some i =>
    match decodeInt (i.attr "tally") with
    | .ok tally => .ok ⟨i.pk, i.sk, tally⟩
    | .error e => .error e

/-- The function `MarshalMap` on a `dynamoBSToken` (tags `pk`, `sk`,
`bstoken,omitempty`). -/
def dynamoBSToken.marshal (d : dynamoBSToken) : Item :=
  { pk := d.Device, sk := d.Category, attrs := omitEmpty "bstoken" d.BSToken }

/-- The function `UnmarshalMap` into a zero `dynamoBSToken`. -/
def dynamoBSToken.unmarshal (it : Option Item) : Except String dynamoBSToken :=
  match it with
  | none => .ok ⟨"", "", ""⟩
  | some i =>
    match decodeString (i.attr "bstoken") with
    | .ok token => .ok ⟨i.pk, i.sk, token⟩
    | .error e => .error e

/-- The method `StoreAuthenticate`: the error of the first `AddItem` is dropped,
that of the second is returned.  The parameter `PEMCertificate` is
`cryptoutil.PEMCertificate`, declared outside the storage package. -/
def StoreAuthenticate (PEMCertificate : String → String) (s : DSDynamoTable) (r : Request)
    (msg : Authenticate) : Option String × DSDynamoTable :=
  let idCert : dsIdentityCert :=
    { Device := "device#" ++ r.ID, Category := IdentityCertFilename,
      Cert := PEMCertificate r.Certificate }
  let serial : dsGenericItem :=
    { PK := "device#" ++ r.ID, SK := "serial", Body := msg.SerialNumber }
  let s1 := (AddItem s serial.marshal).2
  AddItem s1 idCert.marshal

/-- The method `StoreTokenUpdate`. -/
def StoreTokenUpdate (s : DSDynamoTable) (r : Request) (msg : TokenUpdate) :
    Option String × DSDynamoTable :=
  let tokenUnlock : dsTokenUnlock :=
    { Device := "device#" ++ r.ID, Category := UnlockTokenFilename, Token := msg.UnlockToken }
  match AddItem s tokenUnlock.marshal with
  | (some err, s1) => (some err, s1)
  | (none, s1) =>
    let tokenUpdate : dsTokenUpdate :=
      { Device := "device#" ++ r.ID, Category := TokenUpdateFilename, Token := msg.Raw }
    match AddItem s1 tokenUpdate.marshal with
    | (some err, s2) => (some err, s2)
    | (none, s2) =>
      match GetSingleItemPKSK dsTokenUpdateTally.unmarshal s2 ("device#" ++ r.ID)
          TokenUpdateTallyFilename with
      | (some tokenTally, s3) =>
        let updated : dsTokenUpdateTally :=
          { Tally := wrapInt64 (tokenTally.Tally + 1), Device := "device#" ++ r.ID,
            Category := TokenUpdateTallyFilename }
        match AddItem s3 updated.marshal with
        | (some err, s4) => (some err, s4)
        | (none, s4) => (none, s4)
      | (none, s3) => (none, s3)

/-- The method `RetrieveTokenUpdateTally`. -/
def RetrieveTokenUpdateTally (s : DSDynamoTable) (id : String) :
    (Int × Option String) × DSDynamoTable :=
  match GetSingleItemPKSK dsTokenUpdateTally.unmarshal s ("device#" ++ id)
      TokenUpdateTallyFilename with
  | (some tokenTally, s1) =>
    if tokenTally.Tally ≠ 0 then ((tokenTally.Tally, none), s1)
    else ((0, some "no token tally"), s1)
  | (none, s1) => ((0, some "no token tally"), s1)

/-- The method `deleteSingleItem`: the whole marshalled item is sent as the `Key`
of `DeleteItem`; `false` when the call fails. -/
def deleteSingleItem (s : DSDynamoTable) (item : Item) : Bool × DSDynamoTable :=
  match DeleteItem s item with
  | (some _, s1) => (false, s1)
  | (none, s1) => (true, s1)

/-- The function `hashCert`.  The parameters are `sha256.Sum256` and
`hex.EncodeToString` of the Go standard library. -/
def hashCert (Sum256 EncodeToString : String → String) (certRaw : String) : String :=
  EncodeToString (Sum256 certRaw)

/-- The method `Disable`: both results of `deleteSingleItem` are dropped and `nil`
is returned. -/
def Disable (Sum256 EncodeToString : String → String) (s : DSDynamoTable) (r : Request) :
    Option String × DSDynamoTable :=
  let hash := hashCert Sum256 EncodeToString r.Certificate
  let deviceHash : dynamoDeviceToCertHash :=
    { Device := "device#" ++ r.ID, Category := CertHashFile, Hash := hash }
  let s1 := (deleteSingleItem s deviceHash.marshal).2
  let hashToDevice : dynamoCertHashtoDevice := { Hash := "hash#" ++ hash, Device := r.ID }
  let s2 := (deleteSingleItem s1 hashToDevice.marshal).2
  (none, s2)

/-- The method `StoreBootstrapToken`.  The parameter `b64String` is the method
`String` of the token bytes in package `mdm` (their Base64 text). -/
def StoreBootstrapToken (b64String : String → String) (s : DSDynamoTable) (r : Request)
    (msg : SetBootstrapToken) : Option String × DSDynamoTable :=
  let bsToken : dynamoBSToken :=
    { Device := "device#" ++ r.ID, Category := BootstrapTokenFile,
      BSToken := b64String msg.BootstrapToken.BootstrapToken }
  AddItem s bsToken.marshal

/-- The method `RetrieveBootstrapToken`.  The parameter `DecodeString` is
`base64.StdEncoding.DecodeString` with its error dropped, as the code drops it. -/
def RetrieveBootstrapToken (DecodeString : String → String) (s : DSDynamoTable) (r : Request) :
    (Option BootstrapToken × Option String) × DSDynamoTable :=
  match GetSingleItemPKSK dynamoBSToken.unmarshal s ("device#" ++ r.ID) BootstrapTokenFile with
  | (some bsToken, s1) =>
    if bsToken.BSToken ≠ "" then ((none, some "unable to find record in dynamo"), s1)
    else ((some ⟨DecodeString bsToken.BSToken⟩, none), s1)
  | (none, s1) => ((none, some "unable to find record in dynamo"), s1)

/-! ## Auxiliary definitions for the statements on enrollment records -/

/-- Stand-ins for `sha256.Sum256` and `hex.EncodeToString` on which `Disable`
can be evaluated: distinct certificates get distinct digests. -/
def sampleSum256 (certRaw : String) : String := "digest-of-" ++ certRaw

def sampleHex (digest : String) : String := digest

/-- Stand-ins for the Base64 text of a token and its decoding, on which the
bootstrap-token operations can be evaluated: the text of the empty token is
empty, any other text is not. -/
def sampleB64String (token : String) : String := if token = "" then "" else "b64:" ++ token

def sampleDecodeString (text : String) : String := text.drop 4

/-- A device presenting the certificate `cert-A`. -/
def deviceA : Request := ⟨"ABC-123", "cert-A"⟩

/-- The same device presenting another certificate, `cert-B`. -/
def deviceB : Request := ⟨"ABC-123", "cert-B"⟩

/-- The table after `deviceA` was associated with the hash of its certificate. -/
def boundA : DSDynamoTable :=
  (AssociateCertHash emptyTable deviceA (hashCert sampleSum256 sampleHex "cert-A")).2

/-- The tally stored for a device: the decoded tally of its tally row, zero when
there is no such row, an error when the row does not decode. -/
def storedTally (s : DSDynamoTable) (id : String) : Except String Int :=
  match dsTokenUpdateTally.unmarshal (getRow ("device#" ++ id) TokenUpdateTallyFilename s.rows) with
  | .ok t => .ok t.Tally
  | .error e => .error e

/-- The store after `StoreTokenUpdate` was called once for each message, in order. -/
def afterTokenUpdates (s : DSDynamoTable) (r : Request) (msgs : List TokenUpdate) :
    DSDynamoTable :=
  msgs.foldl (fun st msg => (StoreTokenUpdate st r msg).2) s

/-- A stand-in for `cryptoutil.PEMCertificate` on which `StoreAuthenticate` can be
evaluated. -/
def samplePEM (certRaw : String) : String := "PEM:" ++ certRaw

/-- The same table behind a backend with the given fault schedule. -/
def withFaults (s : DSDynamoTable) (faults : List Bool) : DSDynamoTable :=
  { s with faults := faults }

/-- An empty table whose second backend call fails. -/
def secondCallFails : DSDynamoTable := ⟨[], [false, true], 0⟩

/-- An empty table whose third backend call fails. -/
def thirdCallFails : DSDynamoTable := ⟨[], [false, false, true], 0⟩

/-! ## Lemmas and theorems -/

/-! ## Backend lemmas -/

theorem nextFault_rows (s : DSDynamoTable) : (nextFault s).2.rows = s.rows := by
  unfold nextFault; cases s.faults <;> rfl

theorem nextFault_clock (s : DSDynamoTable) : (nextFault s).2.clock = s.clock := by
  unfold nextFault; cases s.faults <;> rfl

theorem sameKey_iff (a b : Item) : sameKey a b = true ↔ a.pk = b.pk ∧ a.sk = b.sk := by
  simp [sameKey]

theorem mem_putRow (item x : Item) (rows : List Item) :
    x ∈ putRow item rows ↔ x = item ∨ (x ∈ rows ∧ sameKey item x = false) := by
  unfold putRow
  split
  · rename_i h
    simp only [List.mem_map]
    constructor
    · rintro ⟨r, hr, hx⟩
      by_cases hk : sameKey item r = true
      · left; simp [hk] at hx; exact hx.symm
      · right; simp [hk] at hx; subst hx; exact ⟨hr, by simpa using hk⟩
    · rintro (hx | ⟨hx, hk⟩)
      · obtain ⟨r, hr, hk⟩ := List.any_eq_true.mp h
        exact ⟨r, hr, by simp [hk, hx]⟩
      · exact ⟨x, hx, by simp [hk]⟩
  · rename_i h
    simp only [List.mem_append, List.mem_singleton]
    constructor
    · rintro (hx | hx)
      · right
        refine ⟨hx, ?_⟩
        by_contra hk
        exact h (List.any_eq_true.mpr ⟨x, hx, by simpa using hk⟩)
      · left; exact hx
    · rintro (hx | ⟨hx, _⟩)
      · right; exact hx
      · left; exact hx

theorem self_mem_putRow (item : Item) (rows : List Item) : item ∈ putRow item rows :=
  (mem_putRow item item rows).mpr (Or.inl rfl)

theorem find_unique {p : Item → Bool} {a : Item} :
    ∀ {l : List Item}, (∃ x ∈ l, p x = true) → (∀ x ∈ l, p x = true → x = a) →
      l.find? p = some a
  | [], h, _ => by simp at h
  | y :: l, h, hu => by
    by_cases hy : p y = true
    · have hya := hu y (List.mem_cons_self _ _) hy
      subst hya
      rw [List.find?_cons, hy]
    · have hy' : p y = false := by simpa using hy
      rw [List.find?_cons, hy']
      apply find_unique
      · obtain ⟨x, hx, hpx⟩ := h
        rcases List.mem_cons.mp hx with rfl | hx
        · exact absurd hpx hy
        · exact ⟨x, hx, hpx⟩
      · intro x hx hpx
        exact hu x (List.mem_cons_of_mem _ hx) hpx

theorem getRow_putRow_self (item : Item) (rows : List Item) :
    getRow item.pk item.sk (putRow item rows) = some item := by
  unfold getRow
  apply find_unique
  · exact ⟨item, self_mem_putRow item rows, by simp⟩
  · intro x hx hp
    rcases (mem_putRow item x rows).mp hx with rfl | ⟨_, hk⟩
    · rfl
    · simp at hp
      have : sameKey item x = true := (sameKey_iff _ _).mpr ⟨hp.1.symm, hp.2.symm⟩
      simp [this] at hk

theorem getRow_putRow_other (item : Item) (pk sk : String) (rows : List Item)
    (h : ¬ (item.pk = pk ∧ item.sk = sk)) :
    getRow pk sk (putRow item rows) = getRow pk sk rows := by
  have hitem : (decide (item.pk = pk) && decide (item.sk = sk)) = false := by
    simpa using h
  unfold putRow
  split
  · clear * - h hitem
    induction rows with
    | nil => rfl
    | cons y l ih =>
      unfold getRow at ih ⊢
      by_cases hk : sameKey item y = true
      · have hy : (decide (y.pk = pk) && decide (y.sk = sk)) = false := by
          obtain ⟨h1, h2⟩ := (sameKey_iff _ _).mp hk
          rw [← h1, ← h2]; exact hitem
        rw [List.map_cons, if_pos hk, List.find?_cons, hitem, List.find?_cons, hy]
        exact ih
      · rw [List.map_cons, if_neg hk, List.find?_cons, List.find?_cons]
        cases hy : (decide (y.pk = pk) && decide (y.sk = sk))
        · exact ih
        · rfl
  · unfold getRow
    rw [List.find?_append]
    simp [List.find?, hitem]

theorem PutItem_eq (s : DSDynamoTable) (item : Item) :
    PutItem s item =
      if nextCallFails s = true then (some "PutItem failed", (nextFault s).2)
      else (none, { (nextFault s).2 with rows := putRow item s.rows }) := by
  have hr := nextFault_rows s
  unfold PutItem nextCallFails
  rcases h : nextFault s with ⟨b, s1⟩
  rw [h] at hr
  simp only at hr
  cases b <;> simp [hr]

theorem GetItem_eq (s : DSDynamoTable) (pk sk : String) :
    GetItem s pk sk =
      if nextCallFails s = true then (.error "GetItem failed", (nextFault s).2)
      else (.ok (getRow pk sk s.rows), (nextFault s).2) := by
  have hr := nextFault_rows s
  unfold GetItem nextCallFails
  rcases h : nextFault s with ⟨b, s1⟩
  rw [h] at hr
  simp only at hr
  cases b <;> simp [hr]

theorem Query_eq (s : DSDynamoTable) (pkey : String) (filter : Item → Bool) :
    Query s pkey filter =
      if nextCallFails s = true then (.error "Query failed", (nextFault s).2)
      else (.ok (s.rows.filter (fun r => decide (r.pk = pkey) && filter r)), (nextFault s).2) := by
  have hr := nextFault_rows s
  unfold Query nextCallFails
  rcases h : nextFault s with ⟨b, s1⟩
  rw [h] at hr
  simp only at hr
  cases b <;> simp [hr]

theorem unmarshal_marshal (c : dsCommand) :
    dsCommand.unmarshal (some c.marshal) = .ok c := by
  cases c; rfl

theorem unmarshalCommands_map (f : Item → dsCommand) :
    ∀ (l : List Item), (∀ x ∈ l, dsCommand.unmarshal (some x) = .ok (f x)) →
      unmarshalCommands l = .ok (l.map f)
  | [], _ => rfl
  | y :: l, h => by
    have hy := h y (List.mem_cons_self _ _)
    have hl := unmarshalCommands_map f l (fun x hx => h x (List.mem_cons_of_mem _ hx))
    simp [unmarshalCommands, hy, hl]

theorem EnqueueCommand_single (s : DSDynamoTable) (id : String) (C : Command) :
    EnqueueCommand s [id] C =
      if nextCallFails (timeNow s).2 = true then
        (([(id, "PutItem failed")], none), (nextFault (timeNow s).2).2)
      else
        (([], none), { (nextFault (timeNow s).2).2 with
            rows := putRow (queuedRow id C (timeNow s).1).marshal s.rows }) := by
  simp only [EnqueueCommand, List.foldl, enqueueOne, AddItem, PutItem_eq]
  cases h : nextCallFails (timeNow s).2 <;> simp [queuedRow, timeNow]

theorem getAllCommands_eq (s : DSDynamoTable) (id : String) (skipNotNow : Bool) :
    getAllCommands s id skipNotNow =
      if nextCallFails s = true then (none, (nextFault s).2)
      else
        match unmarshalCommands (s.rows.filter (fun r => decide (r.pk = "queue#" ++ id) &&
            (if skipNotNow = true then filterQueue r else filterQueueOrNotNow r))) with
        | .error _ => (none, (nextFault s).2)
        | .ok commands => (some commands, (nextFault s).2) := by
  unfold getAllCommands
  cases skipNotNow <;> cases h : nextCallFails s <;> simp [Query_eq, h]

theorem filterQueue_marshal (c : dsCommand) :
    filterQueue c.marshal = decide (c.Status = "Queue") := by
  cases c
  simp [filterQueue, dsCommand.marshal, Item.attr, List.lookup]

theorem filterQueueOrNotNow_marshal (c : dsCommand) :
    filterQueueOrNotNow c.marshal =
      (decide (c.Status = "Queue") || decide (c.Status = "QueueNotNow")) := by
  cases c
  simp [filterQueueOrNotNow, dsCommand.marshal, Item.attr, List.lookup]

theorem filterQueue_le (x : Item) (h : filterQueueOrNotNow x = false) : filterQueue x = false := by
  simp only [filterQueueOrNotNow, Bool.or_eq_false_iff] at h
  exact h.1

/-- A query result all of whose rows are one marshalled command, present at least
once, decodes to a list headed by that command. -/
theorem unmarshalCommands_const (c : dsCommand) (l : List Item)
    (hne : c.marshal ∈ l) (hall : ∀ x ∈ l, x = c.marshal) :
    ∃ cs, unmarshalCommands l = .ok (c :: cs) := by
  have h := unmarshalCommands_map (fun _ => c) l
    (fun x hx => by rw [hall x hx]; exact unmarshal_marshal c)
  cases l with
  | nil => simp at hne
  | cons y l => exact ⟨l.map (fun _ => c), by simpa using h⟩

theorem RetrieveNextCommand_unique (DecodeCommand : String → Option Command × Option String)
    (s : DSDynamoTable) (r : Request) (skipNotNow : Bool) (c : dsCommand)
    (hcall : nextCallFails s = false)
    (hmem : c.marshal ∈ s.rows) (hpk : c.Queue = "queue#" ++ r.ID)
    (hsel : pendingFilter skipNotNow c.marshal = true)
    (huniq : ∀ x ∈ s.rows, x.pk = "queue#" ++ r.ID → pendingFilter skipNotNow x = true →
      x = c.marshal) :
    (RetrieveNextCommand DecodeCommand s r skipNotNow).1 = DecodeCommand c.Payload := by
  obtain ⟨cs, hcs⟩ := unmarshalCommands_const c
    (s.rows.filter (fun x => decide (x.pk = "queue#" ++ r.ID) && pendingFilter skipNotNow x))
    (by
      apply List.mem_filter.mpr
      refine ⟨hmem, ?_⟩
      have : (dsCommand.marshal c).pk = "queue#" ++ r.ID := hpk
      simp [this, hsel])
    (by
      intro x hx
      obtain ⟨hx1, hx2⟩ := List.mem_filter.mp hx
      simp only [Bool.and_eq_true, decide_eq_true_eq] at hx2
      exact huniq x hx1 hx2.1 hx2.2)
  unfold RetrieveNextCommand
  rw [getAllCommands_eq, hcall]
  simp only [pendingFilter] at hcs
  simp [hcs]

theorem RetrieveNextCommand_none (DecodeCommand : String → Option Command × Option String)
    (s : DSDynamoTable) (r : Request) (skipNotNow : Bool)
    (hnone : ∀ x ∈ s.rows, x.pk = "queue#" ++ r.ID → pendingFilter skipNotNow x = false) :
    (RetrieveNextCommand DecodeCommand s r skipNotNow).1 = (none, none) := by
  have hfil : s.rows.filter (fun x => decide (x.pk = "queue#" ++ r.ID) &&
      (if skipNotNow = true then filterQueue x else filterQueueOrNotNow x)) = [] := by
    apply List.filter_eq_nil_iff.mpr
    intro x hx
    by_cases hpk : x.pk = "queue#" ++ r.ID
    · have := hnone x hx hpk
      simp only [pendingFilter] at this
      simp [this]
    · simp [hpk]
  unfold RetrieveNextCommand
  rw [getAllCommands_eq, hfil]
  cases nextCallFails s <;> simp [unmarshalCommands]

theorem RetrieveNextCommand_rows (DecodeCommand : String → Option Command × Option String)
    (s : DSDynamoTable) (r : Request) (skipNotNow : Bool) :
    (RetrieveNextCommand DecodeCommand s r skipNotNow).2.rows = s.rows := by
  unfold RetrieveNextCommand
  rw [getAllCommands_eq]
  cases nextCallFails s
  · simp only [Bool.false_eq_true, if_false]
    split <;> rename_i h <;> split at h <;> simp at h <;>
      (rw [← h.2]; exact nextFault_rows s)
  · simp [nextFault_rows]

/-- C1 (amended). Enqueue/retrieve round trip: for a device whose queue partition
holds no pending row, after `EnqueueCommand([D], C)` with `D` absent from the
per-ID error map, the row `(queue#D, C.CommandUUID)` has status `Queue`, and
`RetrieveNextCommand(D, true)`, when its query succeeds, returns what
`mdm.DecodeCommand` makes of exactly `C.Raw`: the decoded command and no error
when that payload decodes. -/
theorem enqueue_retrieve_roundtrip (DecodeCommand : String → Option Command × Option String)
    (s : DSDynamoTable) (r : Request) (C : Command)
    (hpend : ∀ x ∈ s.rows, x.pk = "queue#" ++ r.ID → filterQueueOrNotNow x = false)
    (hwrite : (EnqueueCommand s [r.ID] C).1.1.lookup r.ID = none) :
    (EnqueueCommand s [r.ID] C).1.2 = none ∧
    statusOf (EnqueueCommand s [r.ID] C).2 ("queue#" ++ r.ID) C.CommandUUID
      = some (.S subQueue) ∧
    (nextCallFails (EnqueueCommand s [r.ID] C).2 = false →
      (RetrieveNextCommand DecodeCommand (EnqueueCommand s [r.ID] C).2 r true).1
        = DecodeCommand C.Raw ∧
      ∀ c, DecodeCommand C.Raw = (some c, none) →
        (RetrieveNextCommand DecodeCommand (EnqueueCommand s [r.ID] C).2 r true).1
          = (some c, none)) := by
  have hE := EnqueueCommand_single s r.ID C
  cases hput : nextCallFails (timeNow s).2
  · rw [hput] at hE
    simp only [Bool.false_eq_true, if_false] at hE
    rw [hE]
    refine ⟨rfl, ?_, ?_⟩
    · have := getRow_putRow_self (queuedRow r.ID C (timeNow s).1).marshal s.rows
      unfold statusOf
      exact (congrArg (fun o => Option.bind o (fun row => row.attr "status")) this).trans rfl
    · intro hquery
      have hret : (RetrieveNextCommand DecodeCommand
          { (nextFault (timeNow s).2).2 with
            rows := putRow (queuedRow r.ID C (timeNow s).1).marshal s.rows } r true).1
          = DecodeCommand C.Raw := by
        apply RetrieveNextCommand_unique DecodeCommand _ r true (queuedRow r.ID C (timeNow s).1)
          hquery
        · exact self_mem_putRow _ _
        · rfl
        · simp [pendingFilter, filterQueue_marshal, queuedRow, subQueue]
        · intro x hx hpk hsel
          rcases (mem_putRow _ x s.rows).mp hx with rfl | ⟨hx, _⟩
          · rfl
          · have := filterQueue_le x (hpend x hx hpk)
            simp [pendingFilter, this] at hsel
      exact ⟨hret, fun c hdec => by rw [hret, hdec]⟩
  · rw [hput] at hE
    simp only [if_true] at hE
    rw [hE] at hwrite
    simp [List.lookup] at hwrite

theorem enqueue_retrieve_roundtrip_witness :
    (RetrieveNextCommand sampleDecode (EnqueueCommand emptyTable ["ABC-123"] ⟨"u1", "payload"⟩).2
      device true).1 = (some ⟨"decoded", "payload"⟩, none) :=
  ((enqueue_retrieve_roundtrip sampleDecode emptyTable device ⟨"u1", "payload"⟩
    (by intro x hx; simp [emptyTable] at hx) (by decide)).2.2 (by decide)).2
    ⟨"decoded", "payload"⟩ (by decide)

/-- C1 (counterexample). The write of `EnqueueCommand` succeeds and the row has
status `Queue`, but the query of `RetrieveNextCommand(D, true)` fails: it returns
no command and no error, although the payload decodes. -/
theorem retrieve_after_enqueue_with_failing_query :
    (EnqueueCommand secondCallFails ["ABC-123"] commandOne).1.1.lookup "ABC-123" = none ∧
    statusOf (EnqueueCommand secondCallFails ["ABC-123"] commandOne).2 "queue#ABC-123" "c1"
      = some (.S subQueue) ∧
    sampleDecode commandOne.Raw = (some ⟨"decoded", "payload-1"⟩, none) ∧
    (RetrieveNextCommand sampleDecode
      (EnqueueCommand secondCallFails ["ABC-123"] commandOne).2 device true).1
      = (none, none) := by
  decide

theorem GetSingleItemPKSK_eq {α : Type} (unmarshal : Option Item → Except String α)
    (s : DSDynamoTable) (pk sk : String) :
    GetSingleItemPKSK unmarshal s pk sk =
      if nextCallFails s = true then (none, (nextFault s).2)
      else
        match unmarshal (getRow pk sk s.rows) with
        | .error _ => (none, (nextFault s).2)
        | .ok v => (some v, (nextFault s).2) := by
  unfold GetSingleItemPKSK
  rw [GetItem_eq]
  cases nextCallFails s <;> simp

theorem queue_ne_QueueDone (id : String) : "queue#" ++ id ≠ "QueueDone" := by
  intro h
  have := congrArg String.data h
  simp at this

theorem device_ne_hash (id hash : String) : "device#" ++ id ≠ "hash#" ++ hash := by
  intro h
  have := congrArg String.data h
  simp at this

theorem timeNow_rows (s : DSDynamoTable) : (timeNow s).2.rows = s.rows := rfl

theorem timeNow_nextCallFails (s : DSDynamoTable) :
    nextCallFails (timeNow s).2 = nextCallFails s := by
  unfold nextCallFails nextFault timeNow
  cases s.faults <;> rfl

/-- A report that returns `nil` on a stored command with a payload has overwritten that row. -/
theorem StoreCommandReport_rows (s : DSDynamoTable) (r : Request) (report : CommandResults)
    (c : dsCommand) (hidle : report.Status ≠ "Idle")
    (hrow : getRow ("queue#" ++ r.ID) report.CommandUUID s.rows = some c.marshal)
    (hpay : c.Payload ≠ "")
    (hok : (StoreCommandReport s r report).1 = none) :
    (StoreCommandReport s r report).2.rows
      = putRow (reportedRow c (toString s.clock) report).marshal s.rows := by
  have hq : c.Queue ≠ "QueueDone" := by
    have h1 := List.find?_some hrow
    simp only [Bool.and_eq_true, decide_eq_true_eq] at h1
    have h2 : c.Queue = "queue#" ++ r.ID := h1.1
    rw [h2]; exact queue_ne_QueueDone r.ID
  unfold StoreCommandReport at hok ⊢
  rw [if_neg hidle] at hok ⊢
  rw [GetSingleItemPKSK_eq, hrow, unmarshal_marshal] at hok ⊢
  cases hget : nextCallFails s
  · simp only [hget, Bool.false_eq_true, if_false, if_neg hpay, if_neg hq, AddItem,
      PutItem_eq] at hok ⊢
    cases hput : nextCallFails (timeNow (nextFault s).2).2
    · simp [timeNow, nextFault_rows, nextFault_clock, reportedRow]
    · simp [hput] at hok
  · simp [hget] at hok

theorem afterEnqueue_rows (s : DSDynamoTable) (id : String) (C : Command)
    (h : enqueueSucceeds s id C) :
    (afterEnqueue s id C).rows = putRow (queuedRow id C (toString s.clock)).marshal s.rows := by
  unfold enqueueSucceeds at h
  unfold afterEnqueue
  rw [EnqueueCommand_single] at h ⊢
  cases hput : nextCallFails (timeNow s).2
  · simp [timeNow]
  · simp [hput, List.lookup] at h

theorem pendingFilter_queuedRow (skipNotNow : Bool) (id : String) (C : Command) (now : String) :
    pendingFilter skipNotNow (queuedRow id C now).marshal = true := by
  cases skipNotNow <;>
    simp [pendingFilter, filterQueue_marshal, filterQueueOrNotNow_marshal, queuedRow, subQueue]

theorem pendingFilter_of_status (skipNotNow : Bool) (c : dsCommand)
    (h1 : c.Status ≠ "Queue") (h2 : c.Status ≠ "QueueNotNow") :
    pendingFilter skipNotNow c.marshal = false := by
  cases skipNotNow <;>
    simp [pendingFilter, filterQueue_marshal, filterQueueOrNotNow_marshal, h1, h2]

theorem pendingFilter_le (skipNotNow : Bool) (x : Item) (h : filterQueueOrNotNow x = false) :
    pendingFilter skipNotNow x = false := by
  cases skipNotNow
  · simpa [pendingFilter] using h
  · simpa [pendingFilter] using filterQueue_le x h

/-- C3 (amended). For a device whose queue partition held no pending row and for
which two commands with distinct identifiers were enqueued, the first with a
non-empty payload: once `StoreCommandReport(D, C1.CommandUUID, "Error")` has
returned `nil`, the row of `C1` has status `Error`, the row of `C2` is the one
`EnqueueCommand` wrote, and in every later state of the table
`RetrieveNextCommand(D, skipNotNow)`, its query succeeding, returns for both
values of `skipNotNow` what `mdm.DecodeCommand` makes of `C2.Raw`. -/
theorem error_report_excludes_only_that_command
    (DecodeCommand : String → Option Command × Option String)
    (s later : DSDynamoTable) (r : Request) (C1 C2 c2 : Command) (result : String)
    (skipNotNow : Bool)
    (hpend : ∀ x ∈ s.rows, x.pk = "queue#" ++ r.ID → filterQueueOrNotNow x = false)
    (hne : C1.CommandUUID ≠ C2.CommandUUID)
    (hpay : C1.Raw ≠ "")
    (h1 : enqueueSucceeds s r.ID C1)
    (h2 : enqueueSucceeds (afterEnqueue s r.ID C1) r.ID C2)
    (hrep : (StoreCommandReport (afterEnqueue (afterEnqueue s r.ID C1) r.ID C2) r
      ⟨C1.CommandUUID, "Error", result⟩).1 = none)
    (hlater : later.rows = (StoreCommandReport (afterEnqueue (afterEnqueue s r.ID C1) r.ID C2) r
      ⟨C1.CommandUUID, "Error", result⟩).2.rows)
    (hcall : nextCallFails later = false)
    (hdec : DecodeCommand C2.Raw = (some c2, none)) :
    (RetrieveNextCommand DecodeCommand later r skipNotNow).1 = (some c2, none) ∧
    statusOf later ("queue#" ++ r.ID) C1.CommandUUID = some (.S "Error") ∧
    getRow ("queue#" ++ r.ID) C2.CommandUUID later.rows
      = getRow ("queue#" ++ r.ID) C2.CommandUUID
          (afterEnqueue (afterEnqueue s r.ID C1) r.ID C2).rows ∧
    statusOf later ("queue#" ++ r.ID) C2.CommandUUID = some (.S subQueue) := by
  have hr1 := afterEnqueue_rows s r.ID C1 h1
  have hr2 := afterEnqueue_rows _ r.ID C2 h2
  generalize toString s.clock = t1 at hr1
  generalize toString (afterEnqueue s r.ID C1).clock = t2 at hr2
  have hk21 : ¬ ((queuedRow r.ID C2 t2).marshal.pk = "queue#" ++ r.ID ∧
      (queuedRow r.ID C2 t2).marshal.sk = C1.CommandUUID) := fun h => hne h.2.symm
  have hget1 : getRow ("queue#" ++ r.ID) C1.CommandUUID
      (afterEnqueue (afterEnqueue s r.ID C1) r.ID C2).rows = some (queuedRow r.ID C1 t1).marshal := by
    rw [hr2, getRow_putRow_other _ _ _ _ hk21, hr1]
    exact getRow_putRow_self (queuedRow r.ID C1 t1).marshal s.rows
  have hr3 := StoreCommandReport_rows _ r ⟨C1.CommandUUID, "Error", result⟩
    (queuedRow r.ID C1 t1) (show "Error" ≠ "Idle" by decide) hget1 hpay hrep
  generalize toString (afterEnqueue (afterEnqueue s r.ID C1) r.ID C2).clock = t3 at hr3
  rw [hr3] at hlater
  have hk12 : ¬ ((reportedRow (queuedRow r.ID C1 t1) t3 ⟨C1.CommandUUID, "Error", result⟩).marshal.pk
        = "queue#" ++ r.ID ∧
      (reportedRow (queuedRow r.ID C1 t1) t3 ⟨C1.CommandUUID, "Error", result⟩).marshal.sk
        = C2.CommandUUID) := fun h => hne h.2
  have hget2 : getRow ("queue#" ++ r.ID) C2.CommandUUID later.rows
      = getRow ("queue#" ++ r.ID) C2.CommandUUID
          (afterEnqueue (afterEnqueue s r.ID C1) r.ID C2).rows := by
    rw [hlater, getRow_putRow_other _ _ _ _ hk12]
  have hget2' : getRow ("queue#" ++ r.ID) C2.CommandUUID
      (afterEnqueue (afterEnqueue s r.ID C1) r.ID C2).rows = some (queuedRow r.ID C2 t2).marshal := by
    rw [hr2]
    exact getRow_putRow_self (queuedRow r.ID C2 t2).marshal _
  have hret : (RetrieveNextCommand DecodeCommand later r skipNotNow).1 = DecodeCommand C2.Raw := by
    apply RetrieveNextCommand_unique DecodeCommand later r skipNotNow (queuedRow r.ID C2 t2) hcall
    · rw [hlater]
      refine (mem_putRow _ _ _).mpr (Or.inr ⟨?_, ?_⟩)
      · rw [hr2]; exact self_mem_putRow _ _
      · have : ¬ (sameKey (reportedRow (queuedRow r.ID C1 t1) t3
            ⟨C1.CommandUUID, "Error", result⟩).marshal (queuedRow r.ID C2 t2).marshal = true) :=
          fun h => hne ((sameKey_iff _ _).mp h).2
        simpa using this
    · rfl
    · exact pendingFilter_queuedRow _ _ _ _
    · intro x hx hpk hsel
      rw [hlater] at hx
      rcases (mem_putRow _ x _).mp hx with rfl | ⟨hx, hk3⟩
      · have := pendingFilter_of_status skipNotNow
          (reportedRow (queuedRow r.ID C1 t1) t3 ⟨C1.CommandUUID, "Error", result⟩)
          (show "Error" ≠ "Queue" by decide) (show "Error" ≠ "QueueNotNow" by decide)
        rw [this] at hsel; exact absurd hsel (by decide)
      · rw [hr2] at hx
        rcases (mem_putRow _ x _).mp hx with rfl | ⟨hx, hk2⟩
        · rfl
        · rw [hr1] at hx
          rcases (mem_putRow _ x _).mp hx with rfl | ⟨hx, _⟩
          · exfalso
            simp [sameKey, queuedRow, reportedRow, dsCommand.marshal] at hk3
          · have := pendingFilter_le skipNotNow x (hpend x hx hpk)
            rw [this] at hsel; exact absurd hsel (by decide)
  refine ⟨by rw [hret, hdec], ?_, hget2, ?_⟩
  · unfold statusOf
    have : getRow ("queue#" ++ r.ID) C1.CommandUUID later.rows
        = some (reportedRow (queuedRow r.ID C1 t1) t3 ⟨C1.CommandUUID, "Error", result⟩).marshal := by
      rw [hlater]
      exact getRow_putRow_self
        (reportedRow (queuedRow r.ID C1 t1) t3 ⟨C1.CommandUUID, "Error", result⟩).marshal _
    rw [this]; rfl
  · unfold statusOf
    rw [hget2, hget2']; rfl

theorem error_report_excludes_only_that_command_witness :
    (RetrieveNextCommand sampleDecode
      (StoreCommandReport twoQueued device ⟨"c1", "Error", "result"⟩).2 device false).1
      = (some ⟨"decoded", "payload-2"⟩, none) ∧
    statusOf (StoreCommandReport twoQueued device ⟨"c1", "Error", "result"⟩).2
      "queue#ABC-123" "c1" = some (.S "Error") :=
  have h := error_report_excludes_only_that_command sampleDecode emptyTable
    (StoreCommandReport twoQueued device ⟨"c1", "Error", "result"⟩).2 device
    commandOne commandTwo ⟨"decoded", "payload-2"⟩ "result" false
    (by intro x hx; simp [emptyTable] at hx) (by decide) (by decide) rfl rfl rfl rfl rfl rfl
  ⟨h.1, h.2.1⟩

/-- C3 (counterexample). With `C1` carrying an empty payload, the report
`"Error"` on `C1` returns `nil` and changes nothing: the row of `C1` keeps status
`Queue`, and `RetrieveNextCommand(D, true)` hands the payload of `C1`, not that of
`C2`, to the decoder. -/
theorem blank_payload_report_is_dropped :
    (StoreCommandReport blankQueued device ⟨"c1", "Error", "result"⟩).1 = none ∧
    (StoreCommandReport blankQueued device ⟨"c1", "Error", "result"⟩).2.rows = blankQueued.rows ∧
    statusOf (StoreCommandReport blankQueued device ⟨"c1", "Error", "result"⟩).2
      "queue#ABC-123" "c1" = some (.S "Queue") ∧
    (RetrieveNextCommand sampleDecode
      (StoreCommandReport blankQueued device ⟨"c1", "Error", "result"⟩).2 device true).1
      = sampleDecode commandBlank.Raw ∧
    (RetrieveNextCommand sampleDecode
      (StoreCommandReport blankQueued device ⟨"c1", "Error", "result"⟩).2 device true).1
      ≠ sampleDecode commandTwo.Raw := by
  decide

/-- C2 (the code at the failing input). After `EnqueueCommand` and the report
`"NotNow"`, the report returns `nil` and the row has status `NotNow`, which is not
the status `QueueNotNow` the pending filter asks for: `RetrieveNextCommand(D,
false)` and `RetrieveNextCommand(D, true)` both return no command. -/
theorem notnow_report_is_never_redelivered :
    (StoreCommandReport oneQueued device ⟨"c1", "NotNow", "result"⟩).1 = none ∧
    statusOf (StoreCommandReport oneQueued device ⟨"c1", "NotNow", "result"⟩).2
      "queue#ABC-123" "c1" = some (.S "NotNow") ∧
    (RetrieveNextCommand sampleDecode
      (StoreCommandReport oneQueued device ⟨"c1", "NotNow", "result"⟩).2 device false).1
      = (none, none) ∧
    (RetrieveNextCommand sampleDecode
      (StoreCommandReport oneQueued device ⟨"c1", "NotNow", "result"⟩).2 device true).1
      = (none, none) := by
  decide

theorem healthy_nextCallFails {s : DSDynamoTable} (h : Healthy s) : nextCallFails s = false := by
  unfold Healthy at h
  unfold nextCallFails nextFault
  cases hf : s.faults with
  | nil => rfl
  | cons b rest => exact h b (by rw [hf]; exact List.mem_cons_self _ _)

theorem healthy_nextFault {s : DSDynamoTable} (h : Healthy s) : Healthy (nextFault s).2 := by
  unfold Healthy at h ⊢
  unfold nextFault
  cases hf : s.faults with
  | nil => intro b hb; simp [hf] at hb
  | cons b rest =>
    intro b' hb'
    exact h b' (by rw [hf]; exact List.mem_cons_of_mem _ hb')

theorem healthy_timeNow {s : DSDynamoTable} (h : Healthy s) : Healthy (timeNow s).2 := h

theorem clearOne_rows (s : DSDynamoTable) (c : dsCommand) (h : Healthy s) :
    (clearOne s c).rows = putRow (clearedRow c (toString s.clock)).marshal s.rows ∧
      Healthy (clearOne s c) := by
  have hc : nextCallFails (timeNow s).2 = false := healthy_nextCallFails (healthy_timeNow h)
  have hh : Healthy (nextFault (timeNow s).2).2 := healthy_nextFault (healthy_timeNow h)
  unfold clearOne
  simp only [AddItem, PutItem_eq, hc, Bool.false_eq_true, if_false]
  exact ⟨rfl, hh⟩

theorem sameKey_symm (a b : Item) : sameKey a b = sameKey b a := by
  cases h : sameKey b a
  · cases h' : sameKey a b
    · rfl
    · rw [sameKey_iff] at h'
      have := (sameKey_iff b a).mpr ⟨h'.1.symm, h'.2.symm⟩
      rw [h] at this; exact absurd this (by decide)
  · rw [sameKey_iff] at h ⊢
    exact ⟨h.1.symm, h.2.symm⟩

theorem sameKey_trans {a b c : Item} (h1 : sameKey a b = true) (h2 : sameKey b c = true) :
    sameKey a c = true := by
  rw [sameKey_iff] at *
  exact ⟨h1.1.trans h2.1, h1.2.trans h2.2⟩

theorem putRow_keeps_keys (item x : Item) (rows : List Item) (hx : x ∈ rows) :
    ∃ y ∈ putRow item rows, sameKey x y = true := by
  by_cases hk : sameKey item x = true
  · exact ⟨item, self_mem_putRow item rows, by rw [sameKey_symm]; exact hk⟩
  · refine ⟨x, (mem_putRow item x rows).mpr (Or.inr ⟨hx, by simpa using hk⟩), ?_⟩
    simp [sameKey]

/-- The rows after the loop of `ClearQueue`, on a backend that does not fail: a
row is either one the loop wrote, or an original row that shares its key with no
scanned command; and no key disappears. -/
theorem clearLoop_rows : ∀ (cmds : List dsCommand) (s : DSDynamoTable), Healthy s →
    Healthy (cmds.foldl clearOne s) ∧
    (∀ x ∈ (cmds.foldl clearOne s).rows,
      (∃ c ∈ cmds, ∃ t, x = (clearedRow c t).marshal) ∨
      (x ∈ s.rows ∧ ∀ c ∈ cmds, sameKey c.marshal x = false)) ∧
    (∀ x ∈ s.rows, ∃ y ∈ (cmds.foldl clearOne s).rows, sameKey x y = true)
  | [], s, h => by
    refine ⟨h, ?_, ?_⟩
    · intro x hx
      exact Or.inr ⟨hx, by simp⟩
    · intro x hx
      exact ⟨x, hx, by simp [sameKey]⟩
  | c :: cs, s, h => by
    obtain ⟨hr1, hh1⟩ := clearOne_rows s c h
    obtain ⟨ih1, ih2, ih3⟩ := clearLoop_rows cs (clearOne s c) hh1
    rw [List.foldl_cons]
    refine ⟨ih1, ?_, ?_⟩
    · intro x hx
      rcases ih2 x hx with ⟨c', hc', t, ht⟩ | ⟨hx1, hall⟩
      · exact Or.inl ⟨c', List.mem_cons_of_mem _ hc', t, ht⟩
      · rw [hr1] at hx1
        rcases (mem_putRow _ x s.rows).mp hx1 with rfl | ⟨hx0, hk⟩
        · exact Or.inl ⟨c, List.mem_cons_self _ _, _, rfl⟩
        · refine Or.inr ⟨hx0, ?_⟩
          intro c' hc'
          rcases List.mem_cons.mp hc' with rfl | hc'
          · exact hk
          · exact hall c' hc'
    · intro x hx
      obtain ⟨y, hy, hxy⟩ := putRow_keeps_keys (clearedRow c (toString s.clock)).marshal x s.rows hx
      rw [← hr1] at hy
      obtain ⟨z, hz, hyz⟩ := ih3 y hy
      exact ⟨z, hz, sameKey_trans hxy hyz⟩

theorem unmarshal_key (i : Item) (c : dsCommand) (h : dsCommand.unmarshal (some i) = .ok c) :
    c.Queue = i.pk ∧ c.Command = i.sk := by
  unfold dsCommand.unmarshal at h
  simp only at h
  split at h
  · injection h with h; subst h; exact ⟨rfl, rfl⟩
  · exact absurd h (by simp)

theorem unmarshalCommands_keys : ∀ (items : List Item) (cmds : List dsCommand),
    unmarshalCommands items = .ok cmds →
      ∀ i ∈ items, ∃ c ∈ cmds, c.Queue = i.pk ∧ c.Command = i.sk
  | [], _, _ => by simp
  | y :: l, cmds, h => by
    unfold unmarshalCommands at h
    cases hy : dsCommand.unmarshal (some y) with
    | error e => simp [hy] at h
    | ok c =>
      cases hl : unmarshalCommands l with
      | error e => simp [hy, hl] at h
      | ok cs =>
        simp only [hy, hl] at h
        injection h with h
        subst h
        intro i hi
        rcases List.mem_cons.mp hi with rfl | hi
        · exact ⟨c, List.mem_cons_self _ _, unmarshal_key _ c hy⟩
        · obtain ⟨c', hc', hk⟩ := unmarshalCommands_keys l cs hl i hi
          exact ⟨c', List.mem_cons_of_mem _ hc', hk⟩

theorem ClearQueue_eq (s : DSDynamoTable) (r : Request) (h : Healthy s) :
    ClearQueue s r =
      match unmarshalCommands (s.rows.filter (fun x => decide (x.pk = "queue#" ++ r.ID) &&
          filterQueueOrNotNow x)) with
      | .error _ => (none, (nextFault s).2)
      | .ok commands => (none, commands.foldl clearOne (nextFault s).2) := by
  unfold ClearQueue
  rw [getAllCommands_eq, healthy_nextCallFails h]
  simp only [Bool.false_eq_true, if_false]
  cases unmarshalCommands (s.rows.filter (fun x => decide (x.pk = "queue#" ++ r.ID) &&
      filterQueueOrNotNow x)) <;> rfl

theorem filterQueueOrNotNow_clearedRow (c : dsCommand) (t : String) :
    filterQueueOrNotNow (clearedRow c t).marshal = false := by
  rw [filterQueueOrNotNow_marshal]
  simp [clearedRow, subInactive]

/-- After the loop of `ClearQueue` over a successful scan no row of the partition
matches the pending filter. -/
theorem ClearQueue_no_pending (s : DSDynamoTable) (r : Request) (h : Healthy s)
    (cmds : List dsCommand)
    (hu : unmarshalCommands (s.rows.filter (fun x => decide (x.pk = "queue#" ++ r.ID) &&
      filterQueueOrNotNow x)) = .ok cmds) :
    ∀ x ∈ (cmds.foldl clearOne (nextFault s).2).rows, x.pk = "queue#" ++ r.ID →
      filterQueueOrNotNow x = false := by
  intro x hx hpk
  obtain ⟨_, h2, _⟩ := clearLoop_rows cmds (nextFault s).2 (healthy_nextFault h)
  rcases h2 x hx with ⟨c, _, t, rfl⟩ | ⟨hx0, hall⟩
  · exact filterQueueOrNotNow_clearedRow c t
  · rw [nextFault_rows] at hx0
    by_contra hf
    have hf' : filterQueueOrNotNow x = true := by simpa using hf
    have hmem : x ∈ s.rows.filter (fun x => decide (x.pk = "queue#" ++ r.ID) &&
        filterQueueOrNotNow x) := List.mem_filter.mpr ⟨hx0, by simp [hpk, hf']⟩
    obtain ⟨c, hc, hk1, hk2⟩ := unmarshalCommands_keys _ cmds hu x hmem
    have := hall c hc
    have hs : sameKey c.marshal x = true := (sameKey_iff _ _).mpr ⟨hk1, hk2⟩
    rw [hs] at this
    exact absurd this (by decide)

/-- C4. After `ClearQueue(D)` on a backend whose calls all succeed, whatever rows
the table held, `ClearQueue` has returned `nil` and `RetrieveNextCommand(D,
false)` returns no command and no error. -/
theorem clear_queue_leaves_nothing_deliverable
    (DecodeCommand : String → Option Command × Option String)
    (s : DSDynamoTable) (r : Request) (h : Healthy s) :
    (ClearQueue s r).1 = none ∧
    (RetrieveNextCommand DecodeCommand (ClearQueue s r).2 r false).1 = (none, none) := by
  rw [ClearQueue_eq s r h]
  cases hu : unmarshalCommands (s.rows.filter (fun x => decide (x.pk = "queue#" ++ r.ID) &&
      filterQueueOrNotNow x)) with
  | error e =>
    refine ⟨rfl, ?_⟩
    show (RetrieveNextCommand DecodeCommand (nextFault s).2 r false).1 = (none, none)
    unfold RetrieveNextCommand
    rw [getAllCommands_eq, healthy_nextCallFails (healthy_nextFault h), nextFault_rows]
    simp [hu]
  | ok cmds =>
    refine ⟨rfl, ?_⟩
    apply RetrieveNextCommand_none
    intro x hx hpk
    have := ClearQueue_no_pending s r h cmds hu x hx hpk
    simpa [pendingFilter] using this

theorem clear_queue_leaves_nothing_deliverable_witness :
    (RetrieveNextCommand sampleDecode (ClearQueue twoQueued device).2 device false).1
      = (none, none) :=
  (clear_queue_leaves_nothing_deliverable sampleDecode twoQueued device
    (fun b hb => absurd hb (List.not_mem_nil b))).2

theorem unmarshalCommands_keys_rev : ∀ (items : List Item) (cmds : List dsCommand),
    unmarshalCommands items = .ok cmds →
      ∀ c ∈ cmds, ∃ i ∈ items, c.Queue = i.pk ∧ c.Command = i.sk
  | [], cmds, h => by
    unfold unmarshalCommands at h
    injection h with h
    subst h
    simp
  | y :: l, cmds, h => by
    unfold unmarshalCommands at h
    cases hy : dsCommand.unmarshal (some y) with
    | error e => simp [hy] at h
    | ok c0 =>
      cases hl : unmarshalCommands l with
      | error e => simp [hy, hl] at h
      | ok cs =>
        simp only [hy, hl] at h
        injection h with h
        subst h
        intro c hc
        rcases List.mem_cons.mp hc with rfl | hc
        · exact ⟨y, List.mem_cons_self _ _, unmarshal_key _ _ hy⟩
        · obtain ⟨i, hi, hk⟩ := unmarshalCommands_keys_rev l cs hl c hc
          exact ⟨i, List.mem_cons_of_mem _ hi, hk⟩

theorem scan_ok (s : DSDynamoTable) (r : Request) (h : Healthy s)
    (hscan : (getAllCommands s r.ID false).1.isSome = true) :
    ∃ cmds, unmarshalCommands (s.rows.filter (fun x => decide (x.pk = "queue#" ++ r.ID) &&
      filterQueueOrNotNow x)) = .ok cmds := by
  rw [getAllCommands_eq, healthy_nextCallFails h] at hscan
  simp only [Bool.false_eq_true, if_false] at hscan
  cases hu : unmarshalCommands (s.rows.filter (fun x => decide (x.pk = "queue#" ++ r.ID) &&
      filterQueueOrNotNow x)) with
  | error e => rw [hu] at hscan; simp at hscan
  | ok cmds => exact ⟨cmds, rfl⟩

/-- C5 (amended). When the scan of `ClearQueue(D)` succeeds (query and decoding)
and the backend calls all succeed, every row of the partition `queue#D` whose
status is `Queue` or `QueueNotNow` has status `QueueInactive` afterwards, and a row
that does not match that filter (and is the only row under its key) is still
stored unchanged. -/
theorem clear_queue_flips_pending_rows (s : DSDynamoTable) (r : Request) (h : Healthy s)
    (hscan : (getAllCommands s r.ID false).1.isSome = true) :
    (∀ x ∈ s.rows, x.pk = "queue#" ++ r.ID → filterQueueOrNotNow x = true →
      statusOf (ClearQueue s r).2 x.pk x.sk = some (.S subInactive)) ∧
    (∀ x ∈ s.rows, (x.pk = "queue#" ++ r.ID → filterQueueOrNotNow x = false) →
      (∀ y ∈ s.rows, sameKey x y = true → y = x) →
      getRow x.pk x.sk (ClearQueue s r).2.rows = some x) := by
  obtain ⟨cmds, hu⟩ := scan_ok s r h hscan
  rw [ClearQueue_eq s r h, hu]
  obtain ⟨_, h2, h3⟩ := clearLoop_rows cmds (nextFault s).2 (healthy_nextFault h)
  rw [nextFault_rows] at h2 h3
  constructor
  · intro x hx hpk hpend
    show statusOf (cmds.foldl clearOne (nextFault s).2) x.pk x.sk = some (.S subInactive)
    have hmem : x ∈ s.rows.filter (fun x => decide (x.pk = "queue#" ++ r.ID) &&
        filterQueueOrNotNow x) := List.mem_filter.mpr ⟨hx, by simp [hpk, hpend]⟩
    obtain ⟨c, hc, hk1, hk2⟩ := unmarshalCommands_keys _ cmds hu x hmem
    obtain ⟨y, hy, hxy⟩ := h3 x hx
    unfold statusOf getRow
    cases hf : (cmds.foldl clearOne (nextFault s).2).rows.find?
        (fun row => decide (row.pk = x.pk) && decide (row.sk = x.sk)) with
    | none =>
      have := List.find?_eq_none.mp hf y hy
      rw [sameKey_iff] at hxy
      simp [hxy.1, hxy.2] at this
    | some z =>
      have hz := List.mem_of_find?_eq_some hf
      have hpz := List.find?_some hf
      simp only [Bool.and_eq_true, decide_eq_true_eq] at hpz
      rcases h2 z hz with ⟨c', _, t, rfl⟩ | ⟨_, hall⟩
      · rfl
      · have hs : sameKey c.marshal z = true :=
          (sameKey_iff _ _).mpr ⟨hk1.trans hpz.1.symm, hk2.trans hpz.2.symm⟩
        rw [hall c hc] at hs
        exact absurd hs (by decide)
  · intro x hx hnp huniq
    show getRow x.pk x.sk (cmds.foldl clearOne (nextFault s).2).rows = some x
    unfold getRow
    apply find_unique
    · obtain ⟨y, hy, hxy⟩ := h3 x hx
      rw [sameKey_iff] at hxy
      exact ⟨y, hy, by simp [hxy.1, hxy.2]⟩
    · intro z hz hpz
      simp only [Bool.and_eq_true, decide_eq_true_eq] at hpz
      rcases h2 z hz with ⟨c, hc, t, rfl⟩ | ⟨hz0, _⟩
      · exfalso
        obtain ⟨i, hi, hk1, hk2⟩ := unmarshalCommands_keys_rev _ cmds hu c hc
        obtain ⟨hi0, hip⟩ := List.mem_filter.mp hi
        simp only [Bool.and_eq_true, decide_eq_true_eq] at hip
        have hxi : sameKey x i = true :=
          (sameKey_iff _ _).mpr ⟨hpz.1.symm.trans hk1, hpz.2.symm.trans hk2⟩
        have := huniq i hi0 hxi
        subst this
        rw [hnp hip.1] at hip
        exact absurd hip.2 (by decide)
      · exact huniq z hz0 ((sameKey_iff _ _).mpr ⟨hpz.1.symm, hpz.2.symm⟩)

theorem clear_queue_flips_pending_rows_witness :
    statusOf (ClearQueue oneDoneOneQueued device).2 "queue#ABC-123" "c2"
      = some (.S subInactive) :=
  (clear_queue_flips_pending_rows oneDoneOneQueued device
    (fun b hb => absurd hb (List.not_mem_nil b)) rfl).1
    (queuedRow "ABC-123" commandTwo "1").marshal (by decide) rfl rfl

/-- C5 (counterexample). A row of the partition whose status is a completed one
(`Acknowledged`) is not flipped by `ClearQueue`: it keeps its status. -/
theorem clear_queue_skips_done_rows :
    (ClearQueue oneDoneOneQueued device).1 = none ∧
    statusOf oneDoneOneQueued "queue#ABC-123" "c1" = some (.S "Acknowledged") ∧
    statusOf (ClearQueue oneDoneOneQueued device).2 "queue#ABC-123" "c1"
      = some (.S "Acknowledged") ∧
    statusOf (ClearQueue oneDoneOneQueued device).2 "queue#ABC-123" "c1"
      ≠ some (.S subInactive) := by
  decide

/-- C6 (the code at the failing input). After `EnqueueCommand` and `ClearQueue`
the row has status `QueueInactive`; a later report `Acknowledged` returns `nil`
and overwrites the row: its status becomes `Acknowledged` and its result is the
reported one. -/
theorem report_after_clear_overwrites_row :
    statusOf oneCleared "queue#ABC-123" "c1" = some (.S subInactive) ∧
    (StoreCommandReport oneCleared device ⟨"c1", "Acknowledged", "late"⟩).1 = none ∧
    statusOf (StoreCommandReport oneCleared device ⟨"c1", "Acknowledged", "late"⟩).2
      "queue#ABC-123" "c1" = some (.S "Acknowledged") ∧
    (getRow "queue#ABC-123" "c1"
      (StoreCommandReport oneCleared device ⟨"c1", "Acknowledged", "late"⟩).2.rows).bind
        (fun row => row.attr "result") = some (.S "late") ∧
    (StoreCommandReport oneCleared device ⟨"c1", "Acknowledged", "late"⟩).2.rows
      ≠ oneCleared.rows := by
  decide

/-- C7 (the code at the failing input). A command reported as `Acknowledged` is
not pending; a later report for the same identifier with status `Queue` returns
`nil`, sets the status of the row to `Queue`, and `RetrieveNextCommand` returns
the command again. -/
theorem report_requeues_done_command :
    statusOf oneDone "queue#ABC-123" "c1" = some (.S "Acknowledged") ∧
    (RetrieveNextCommand sampleDecode oneDone device false).1 = (none, none) ∧
    (StoreCommandReport oneDone device ⟨"c1", "Queue", "again"⟩).1 = none ∧
    statusOf (StoreCommandReport oneDone device ⟨"c1", "Queue", "again"⟩).2
      "queue#ABC-123" "c1" = some (.S subQueue) ∧
    (RetrieveNextCommand sampleDecode
      (StoreCommandReport oneDone device ⟨"c1", "Queue", "again"⟩).2 device true).1
      = (some ⟨"decoded", "payload-1"⟩, none) ∧
    (RetrieveNextCommand sampleDecode
      (StoreCommandReport oneDone device ⟨"c1", "Queue", "again"⟩).2 device false).1
      = (some ⟨"decoded", "payload-1"⟩, none) := by
  decide

/-- C8 (amended). A report with a status other than `Idle` for which no row
`(queue#D, uuid)` is stored writes nothing; it returns the error `unable to find
command in database` when the `GetItem` call fails, and `nil` when the lookup
succeeds and finds no row. -/
theorem report_on_unknown_command (s : DSDynamoTable) (r : Request) (report : CommandResults)
    (hidle : report.Status ≠ "Idle")
    (habs : getRow ("queue#" ++ r.ID) report.CommandUUID s.rows = none) :
    (StoreCommandReport s r report).2.rows = s.rows ∧
    (StoreCommandReport s r report).1 =
      if nextCallFails s = true then some "unable to find command in database" else none := by
  unfold StoreCommandReport
  rw [if_neg hidle, GetSingleItemPKSK_eq, habs]
  cases nextCallFails s
  · exact ⟨nextFault_rows s, rfl⟩
  · exact ⟨nextFault_rows s, rfl⟩

theorem report_on_unknown_command_witness :
    (StoreCommandReport failingTable device ⟨"c1", "Acknowledged", "result"⟩).1
      = some "unable to find command in database" ∧
    (StoreCommandReport failingTable device ⟨"c1", "Acknowledged", "result"⟩).2.rows = [] :=
  have h := report_on_unknown_command failingTable device ⟨"c1", "Acknowledged", "result"⟩
    (by decide) rfl
  ⟨h.2, h.1⟩

/-- C8 (counterexample). On an empty table whose backend does not fail, a report
`Acknowledged` for an unknown command returns `nil`, not an error. -/
theorem report_on_unknown_command_returns_nil :
    getRow "queue#ABC-123" "c1" emptyTable.rows = none ∧
    (StoreCommandReport emptyTable device ⟨"c1", "Acknowledged", "result"⟩).1 = none := by
  decide

/-- C9 (the code at the failing input). `AssociateCertHash(D, h1)` returns `nil`
and writes the reverse row under the key `(hash#h1, D)`; `HasCertHash(h1)` looks
up the key `(hash#h1, DeviceToCertHash)`, finds no row and returns `false`. -/
theorem has_cert_hash_misses_reverse_row :
    (AssociateCertHash emptyTable device "h1").1 = none ∧
    getRow "hash#h1" "ABC-123" oneAssociated.rows = some ⟨"hash#h1", "ABC-123", []⟩ ∧
    getRow "hash#h1" CertHashFile oneAssociated.rows = none ∧
    (HasCertHash oneAssociated device "h1").1 = (false, none) := by
  decide

theorem AssociateCertHash_rows (s : DSDynamoTable) (r : Request) (hash : String)
    (hok : (AssociateCertHash s r hash).1 = none) :
    (AssociateCertHash s r hash).2.rows =
      putRow (dynamoCertHashtoDevice.marshal ⟨"hash#" ++ hash, r.ID⟩)
        (putRow (dynamoDeviceToCertHash.marshal ⟨"device#" ++ r.ID, CertHashFile, hash⟩)
          s.rows) := by
  unfold AssociateCertHash at hok ⊢
  simp only [AddItem, PutItem_eq] at hok ⊢
  cases h1 : nextCallFails s
  · simp only [h1, Bool.false_eq_true, if_false] at hok ⊢
    split at hok
    · simp at hok
    · rename_i h2
      simp only [Bool.not_eq_true] at h2
      simp [h2]
  · simp [h1] at hok

/-- C10 (amended). After `AssociateCertHash(D, H1)` has returned `nil`, in every
later state of the table `IsCertHashAssociated(D, H1)` is `true` when its lookup
succeeds, `IsCertHashAssociated(D, H2)` is `false` for `H2` different from `H1`,
and neither returns an error. -/
theorem associated_hash_is_recognised (s later : DSDynamoTable) (r : Request) (H1 H2 : String)
    (hne : H1 ≠ H2)
    (hok : (AssociateCertHash s r H1).1 = none)
    (hlater : later.rows = (AssociateCertHash s r H1).2.rows) :
    (nextCallFails later = false → (IsCertHashAssociated later r H1).1 = (true, none)) ∧
    (IsCertHashAssociated later r H2).1 = (false, none) ∧
    (IsCertHashAssociated later r H1).1.2 = none := by
  rw [AssociateCertHash_rows s r H1 hok] at hlater
  have hkey : ¬ ((dynamoCertHashtoDevice.marshal ⟨"hash#" ++ H1, r.ID⟩).pk = "device#" ++ r.ID ∧
      (dynamoCertHashtoDevice.marshal ⟨"hash#" ++ H1, r.ID⟩).sk = CertHashFile) :=
    fun h => device_ne_hash r.ID H1 h.1.symm
  have hget : getRow ("device#" ++ r.ID) CertHashFile later.rows
      = some (dynamoDeviceToCertHash.marshal ⟨"device#" ++ r.ID, CertHashFile, H1⟩) := by
    rw [hlater, getRow_putRow_other _ _ _ _ hkey]
    exact getRow_putRow_self
      (dynamoDeviceToCertHash.marshal ⟨"device#" ++ r.ID, CertHashFile, H1⟩) s.rows
  have hdec : dynamoDeviceToCertHash.unmarshal
      (some (dynamoDeviceToCertHash.marshal ⟨"device#" ++ r.ID, CertHashFile, H1⟩))
      = .ok ⟨"device#" ++ r.ID, CertHashFile, H1⟩ := rfl
  unfold IsCertHashAssociated
  rw [GetSingleItemPKSK_eq, hget, hdec]
  cases nextCallFails later <;> simp [hne]

theorem associated_hash_is_recognised_witness :
    (IsCertHashAssociated oneAssociated device "h1").1 = (true, none) ∧
    (IsCertHashAssociated oneAssociated device "h2").1 = (false, none) :=
  have h := associated_hash_is_recognised emptyTable oneAssociated device "h1" "h2"
    (by decide) rfl rfl
  ⟨h.1 rfl, h.2.1⟩

/-- C10 (counterexample). `AssociateCertHash(D, h1)` returns `nil`, but the lookup
of `IsCertHashAssociated(D, h1)` fails and it returns `false`. -/
theorem is_associated_with_failing_lookup :
    (AssociateCertHash thirdCallFails device "h1").1 = none ∧
    getRow "device#ABC-123" CertHashFile (AssociateCertHash thirdCallFails device "h1").2.rows
      = some ⟨"device#ABC-123", "DeviceToCertHash", [("hash", .S "h1")]⟩ ∧
    (IsCertHashAssociated (AssociateCertHash thirdCallFails device "h1").2 device "h1").1
      = (false, none) := by
  decide

/-- C16. A report with status `Idle` returns `nil` and leaves the store as it
was, for every table state, device, command identifier and result payload,
whether or not a row for that identifier exists. -/
theorem idle_report_changes_nothing (s : DSDynamoTable) (r : Request)
    (uuid result : String) :
    StoreCommandReport s r ⟨uuid, "Idle", result⟩ = (none, s) := by
  unfold StoreCommandReport
  simp

/-- C14 (amended). For a key under which no row is stored, `GetSingleItemPKSK`
returns `false` only when the `GetItem` call fails; when that call succeeds it
returns `true` and leaves `result` at the zero value.  It returns `false` when
decoding the stored row fails. -/
theorem lookup_of_missing_row {α : Type} (unmarshal : Option Item → Except String α) (zero : α)
    (s : DSDynamoTable) (pk sk : String)
    (habs : getRow pk sk s.rows = none)
    (hzero : unmarshal none = .ok zero) :
    (GetSingleItemPKSK unmarshal s pk sk).1
      = (if nextCallFails s = true then none else some zero) ∧
    (∀ (s2 : DSDynamoTable) (pk2 sk2 e : String),
      unmarshal (getRow pk2 sk2 s2.rows) = .error e →
        (GetSingleItemPKSK unmarshal s2 pk2 sk2).1 = none) := by
  constructor
  · rw [GetSingleItemPKSK_eq, habs, hzero]
    cases nextCallFails s <;> rfl
  · intro s2 pk2 sk2 e he
    rw [GetSingleItemPKSK_eq, he]
    cases nextCallFails s2 <;> rfl

theorem lookup_of_missing_row_witness :
    (GetSingleItemPKSK dsCommand.unmarshal failingTable "queue#ABC-123" "c1").1 = none ∧
    (GetSingleItemPKSK dsCommand.unmarshal emptyTable "queue#ABC-123" "c1").1
      = some dsCommand.zero :=
  ⟨(lookup_of_missing_row dsCommand.unmarshal dsCommand.zero failingTable
      "queue#ABC-123" "c1" rfl rfl).1,
   (lookup_of_missing_row dsCommand.unmarshal dsCommand.zero emptyTable
      "queue#ABC-123" "c1" rfl rfl).1⟩

/-- C14 (counterexample). On an empty table whose backend does not fail, the
lookup of a key without row returns `true`, with the zero value as result. -/
theorem lookup_of_missing_row_returns_true :
    getRow "queue#ABC-123" "c1" emptyTable.rows = none ∧
    (GetSingleItemPKSK dsCommand.unmarshal emptyTable "queue#ABC-123" "c1").1
      = some dsCommand.zero ∧
    (GetSingleItemPKSK dsCommand.unmarshal emptyTable "queue#ABC-123" "c1").1 ≠ none := by
  decide

/-- C12 (the code at the failing input). `StoreBootstrapToken` returns `nil` and
stores the text of the token; `RetrieveBootstrapToken` then finds a non-empty
`BSToken` and returns the error `unable to find record in dynamo`.  For a
device without stored row it returns an empty token and no error. -/
theorem bootstrap_token_is_not_returned :
    (StoreBootstrapToken sampleB64String emptyTable device ⟨⟨"token"⟩⟩).1 = none ∧
    getRow "device#ABC-123" BootstrapTokenFile
      (StoreBootstrapToken sampleB64String emptyTable device ⟨⟨"token"⟩⟩).2.rows
      = some ⟨"device#ABC-123", "BootstrapToken", [("bstoken", .S "b64:token")]⟩ ∧
    (RetrieveBootstrapToken sampleDecodeString
      (StoreBootstrapToken sampleB64String emptyTable device ⟨⟨"token"⟩⟩).2 device).1
      = (none, some "unable to find record in dynamo") ∧
    getRow "device#ABC-123" BootstrapTokenFile emptyTable.rows = none ∧
    (RetrieveBootstrapToken sampleDecodeString emptyTable device).1 = (some ⟨""⟩, none) := by
  decide

/-- The inverted check of `RetrieveBootstrapToken`, for every Base64 text: a
stored token whose text is not empty is answered with the error. -/
theorem RetrieveBootstrapToken_after_store (b64String DecodeString : String → String)
    (s later : DSDynamoTable) (r : Request) (msg : SetBootstrapToken)
    (hok : (StoreBootstrapToken b64String s r msg).1 = none)
    (hlater : later.rows = (StoreBootstrapToken b64String s r msg).2.rows)
    (hcall : nextCallFails later = false)
    (htext : b64String msg.BootstrapToken.BootstrapToken ≠ "") :
    (RetrieveBootstrapToken DecodeString later r).1
      = (none, some "unable to find record in dynamo") := by
  have hrows : later.rows = putRow (dynamoBSToken.marshal ⟨"device#" ++ r.ID, BootstrapTokenFile,
      b64String msg.BootstrapToken.BootstrapToken⟩) s.rows := by
    rw [hlater]
    unfold StoreBootstrapToken at hok ⊢
    simp only [AddItem, PutItem_eq] at hok ⊢
    cases h1 : nextCallFails s
    · simp
    · simp [h1] at hok
  have hget : getRow ("device#" ++ r.ID) BootstrapTokenFile later.rows
      = some (dynamoBSToken.marshal ⟨"device#" ++ r.ID, BootstrapTokenFile,
          b64String msg.BootstrapToken.BootstrapToken⟩) := by
    rw [hrows]
    exact getRow_putRow_self (dynamoBSToken.marshal ⟨"device#" ++ r.ID, BootstrapTokenFile,
      b64String msg.BootstrapToken.BootstrapToken⟩) s.rows
  have hdec : dynamoBSToken.unmarshal (some (dynamoBSToken.marshal
      ⟨"device#" ++ r.ID, BootstrapTokenFile, b64String msg.BootstrapToken.BootstrapToken⟩))
      = .ok ⟨"device#" ++ r.ID, BootstrapTokenFile,
          b64String msg.BootstrapToken.BootstrapToken⟩ := by
    simp [dynamoBSToken.unmarshal, dynamoBSToken.marshal, omitEmpty, htext, Item.attr,
      List.lookup, decodeString]
  unfold RetrieveBootstrapToken
  rw [GetSingleItemPKSK_eq, hcall, hget, hdec]
  simp [htext]

theorem DeleteItem_rejected (s : DSDynamoTable) (key : Item) (h : key.attrs ≠ []) :
    (DeleteItem s key).1 ≠ none ∧ (DeleteItem s key).2.rows = s.rows := by
  have hr := nextFault_rows s
  unfold DeleteItem
  rcases hn : nextFault s with ⟨b, s1⟩
  rw [hn] at hr
  simp only at hr
  cases b <;> simp [h, hr]

theorem DeleteItem_rows_subset (s : DSDynamoTable) (key : Item) :
    (DeleteItem s key).2.rows = s.rows ∨
    (DeleteItem s key).2.rows
      = s.rows.filter (fun r => not (decide (r.pk = key.pk) && decide (r.sk = key.sk))) := by
  have hr := nextFault_rows s
  unfold DeleteItem
  rcases hn : nextFault s with ⟨b, s1⟩
  rw [hn] at hr
  simp only at hr
  cases b
  · by_cases h : key.attrs = []
    · right; simp [h, hr]
    · left; simp [h, hr]
  · left; simp [hr]

theorem deleteSingleItem_rows_eq (s : DSDynamoTable) (item : Item) :
    (deleteSingleItem s item).2 = (DeleteItem s item).2 := by
  unfold deleteSingleItem
  rcases DeleteItem s item with ⟨e, s1⟩
  cases e <;> rfl

theorem getRow_filter_other (pk sk pk2 sk2 : String) (rows : List Item)
    (h : ¬ (pk2 = pk ∧ sk2 = sk)) :
    getRow pk sk (rows.filter (fun r => not (decide (r.pk = pk2) && decide (r.sk = sk2))))
      = getRow pk sk rows := by
  unfold getRow
  induction rows with
  | nil => rfl
  | cons y l ih =>
    by_cases hy : (decide (y.pk = pk) && decide (y.sk = sk)) = true
    · have hkeep : (not (decide (y.pk = pk2) && decide (y.sk = sk2))) = true := by
        simp only [Bool.and_eq_true, decide_eq_true_eq] at hy
        simp only [Bool.not_eq_true', Bool.and_eq_false_imp, decide_eq_true_eq,
          decide_eq_false_iff_not]
        intro h1 h2
        exact h ⟨h1.symm.trans hy.1, h2.symm.trans hy.2⟩
      simp only [List.filter_cons, hkeep, if_true, List.find?_cons, hy]
    · have hy2 : (decide (y.pk = pk) && decide (y.sk = sk)) = false := by simpa using hy
      by_cases hkeep : (not (decide (y.pk = pk2) && decide (y.sk = sk2))) = true
      · simp only [List.filter_cons, hkeep, if_true, List.find?_cons, hy2]
        exact ih
      · simp only [List.filter_cons, hkeep, if_false, List.find?_cons, hy2]
        exact ih

theorem hash_ne_device (id hash : String) : "hash#" ++ hash ≠ "device#" ++ id :=
  fun h => device_ne_hash id hash h.symm

/-- The forward row survives every `Disable`: the key map of the first delete
carries the attribute `hash` and is rejected, and the second delete addresses a
row of another partition. -/
theorem Disable_keeps_forward_row (Sum256 EncodeToString : String → String)
    (s : DSDynamoTable) (r : Request) :
    getRow ("device#" ++ r.ID) CertHashFile (Disable Sum256 EncodeToString s r).2.rows
      = getRow ("device#" ++ r.ID) CertHashFile s.rows := by
  have h1 := (DeleteItem_rejected s (dynamoDeviceToCertHash.marshal
    ⟨"device#" ++ r.ID, CertHashFile, hashCert Sum256 EncodeToString r.Certificate⟩)
    (by simp [dynamoDeviceToCertHash.marshal])).2
  have hD : (Disable Sum256 EncodeToString s r).2
      = (DeleteItem (DeleteItem s (dynamoDeviceToCertHash.marshal
          ⟨"device#" ++ r.ID, CertHashFile, hashCert Sum256 EncodeToString r.Certificate⟩)).2
        (dynamoCertHashtoDevice.marshal
          ⟨"hash#" ++ hashCert Sum256 EncodeToString r.Certificate, r.ID⟩)).2 := by
    unfold Disable
    simp only [deleteSingleItem_rows_eq]
  rw [hD]
  rcases DeleteItem_rows_subset (DeleteItem s (dynamoDeviceToCertHash.marshal
      ⟨"device#" ++ r.ID, CertHashFile, hashCert Sum256 EncodeToString r.Certificate⟩)).2
    (dynamoCertHashtoDevice.marshal
      ⟨"hash#" ++ hashCert Sum256 EncodeToString r.Certificate, r.ID⟩) with h2 | h2
  · rw [h2, h1]
  · rw [h2, h1]
    apply getRow_filter_other
    intro hk
    exact hash_ne_device r.ID _ hk.1

/-- C11 (the code at the failing input). The device is bound to the hash of its
certificate; `Disable` with that same certificate returns `nil` and removes the
reverse row, but the forward row `(device#D, DeviceToCertHash)` remains and
`IsCertHashAssociated(D, H)` is still `true`. -/
theorem disable_keeps_forward_binding :
    getRow "device#ABC-123" CertHashFile boundA.rows
      = some ⟨"device#ABC-123", "DeviceToCertHash", [("hash", .S "digest-of-cert-A")]⟩ ∧
    getRow "hash#digest-of-cert-A" "ABC-123" boundA.rows
      = some ⟨"hash#digest-of-cert-A", "ABC-123", []⟩ ∧
    (Disable sampleSum256 sampleHex boundA deviceA).1 = none ∧
    getRow "device#ABC-123" CertHashFile
      (Disable sampleSum256 sampleHex boundA deviceA).2.rows
      = some ⟨"device#ABC-123", "DeviceToCertHash", [("hash", .S "digest-of-cert-A")]⟩ ∧
    getRow "hash#digest-of-cert-A" "ABC-123"
      (Disable sampleSum256 sampleHex boundA deviceA).2.rows = none ∧
    (IsCertHashAssociated (Disable sampleSum256 sampleHex boundA deviceA).2 deviceA
      "digest-of-cert-A").1 = (true, none) := by
  decide

theorem nextCallFails_eq_nth (s : DSDynamoTable) : nextCallFails s = nthCallFails s 0 := by
  unfold nextCallFails nextFault nthCallFails
  cases s.faults <;> rfl

theorem nextFault_faults (s : DSDynamoTable) : (nextFault s).2.faults = s.faults.drop 1 := by
  unfold nextFault
  cases hf : s.faults with
  | nil => simp [hf]
  | cons b rest => simp

theorem nthCallFails_shift (a b : DSDynamoTable) (k : Nat) (h : a.faults = b.faults.drop 1) :
    nthCallFails a k = nthCallFails b (k + 1) := by
  unfold nthCallFails
  rw [h]
  cases b.faults with
  | nil => simp
  | cons x rest => simp

/-- One `AddItem`: it consumes one backend call; when that call fails the error
is returned and the rows stay, otherwise the item is put. -/
theorem AddItem_step (s : DSDynamoTable) (item : Item) :
    ∃ s2, s2.faults = s.faults.drop 1 ∧
      ((nthCallFails s 0 = true ∧ AddItem s item = (some "PutItem failed", s2) ∧
          s2.rows = s.rows) ∨
        (nthCallFails s 0 = false ∧ AddItem s item = (none, s2) ∧
          s2.rows = putRow item s.rows)) := by
  unfold AddItem
  rw [PutItem_eq, nextCallFails_eq_nth]
  cases h : nthCallFails s 0
  · exact ⟨{ (nextFault s).2 with rows := putRow item s.rows }, nextFault_faults s,
      Or.inr ⟨rfl, rfl, rfl⟩⟩
  · exact ⟨(nextFault s).2, nextFault_faults s, Or.inl ⟨rfl, rfl, nextFault_rows s⟩⟩

/-- One `GetSingleItemPKSK`: it consumes one backend call; when that call fails
the result is `false`, otherwise it is the decoding of the row under the key. -/
theorem GetSingleItemPKSK_step {α : Type} (unmarshal : Option Item → Except String α)
    (s : DSDynamoTable) (pk sk : String) :
    ∃ s2, s2.faults = s.faults.drop 1 ∧ s2.rows = s.rows ∧
      ((nthCallFails s 0 = true ∧ GetSingleItemPKSK unmarshal s pk sk = (none, s2)) ∨
        (nthCallFails s 0 = false ∧ GetSingleItemPKSK unmarshal s pk sk
          = ((match unmarshal (getRow pk sk s.rows) with
              | .error _ => none
              | .ok v => some v), s2))) := by
  rw [GetSingleItemPKSK_eq, nextCallFails_eq_nth]
  cases h : nthCallFails s 0
  · refine ⟨(nextFault s).2, nextFault_faults s, nextFault_rows s, Or.inr ⟨rfl, ?_⟩⟩
    cases unmarshal (getRow pk sk s.rows) <;> rfl
  · exact ⟨(nextFault s).2, nextFault_faults s, nextFault_rows s, Or.inl ⟨rfl, rfl⟩⟩

theorem lookup_filter_ne (errs : List (String × String)) (id other : String) (h : id ≠ other) :
    (errs.filter (fun e => decide (e.1 ≠ other))).lookup id = errs.lookup id := by
  induction errs with
  | nil => rfl
  | cons e rest ih =>
    obtain ⟨k, v⟩ := e
    by_cases hk : k = other
    · subst hk
      have hne : (id == k) = false := by simpa using h
      simp only [List.filter_cons, ne_eq, not_true_eq_false, decide_False, Bool.false_eq_true,
        if_false, List.lookup_cons, hne]
      exact ih
    · simp only [List.filter_cons, ne_eq, hk, not_false_eq_true, decide_True, if_true,
        List.lookup_cons]
      cases id == k
      · exact ih
      · rfl

/-- One iteration of the loop of `EnqueueCommand`: it consumes one backend call,
keeps every recorded error, and records one for its ID when the call fails. -/
theorem enqueueOne_step (C : Command) (acc : List (String × String) × DSDynamoTable)
    (id : String) :
    (enqueueOne C acc id).2.faults = acc.2.faults.drop 1 ∧
    (∀ other, acc.1.lookup other ≠ none → (enqueueOne C acc id).1.lookup other ≠ none) ∧
    (nthCallFails acc.2 0 = true → (enqueueOne C acc id).1.lookup id ≠ none) := by
  obtain ⟨errs, s⟩ := acc
  obtain ⟨s2, hf, hcase⟩ := AddItem_step (timeNow s).2
    (dsCommand.marshal ⟨"queue#" ++ id, C.CommandUUID, C.Raw, subQueue, (timeNow s).1, ""⟩)
  have hs : (timeNow s).2.faults = s.faults := rfl
  rw [hs] at hf
  have hn : nthCallFails (timeNow s).2 0 = nthCallFails s 0 := rfl
  rw [hn] at hcase
  rcases hcase with ⟨hfail, he, _⟩ | ⟨hok, he, _⟩
  · have hE : enqueueOne C (errs, s) id
        = ((id, "PutItem failed") :: errs.filter (fun e => decide (e.1 ≠ id)), s2) := by
      simp only [enqueueOne, he]
    rw [hE]
    refine ⟨hf, ?_, ?_⟩
    · intro other hother
      by_cases ho : other = id
      · subst ho; simp [List.lookup]
      · have hne : (other == id) = false := by simpa using ho
        simp only [List.lookup_cons, hne]
        rw [lookup_filter_ne errs other id ho]
        exact hother
    · intro _
      simp [List.lookup]
  · have hE : enqueueOne C (errs, s) id = (errs, s2) := by
      simp only [enqueueOne, he]
    rw [hE]
    refine ⟨hf, fun other hother => hother, ?_⟩
    intro hfail
    simp only at hfail
    rw [hok] at hfail
    exact absurd hfail (by decide)

theorem enqueueLoop_keeps (C : Command) :
    ∀ (ids : List String) (acc : List (String × String) × DSDynamoTable) (other : String),
      acc.1.lookup other ≠ none → (ids.foldl (enqueueOne C) acc).1.lookup other ≠ none
  | [], _, _, h => h
  | id :: ids, acc, other, h => by
    rw [List.foldl_cons]
    exact enqueueLoop_keeps C ids _ other ((enqueueOne_step C acc id).2.1 other h)

theorem enqueueLoop_records (C : Command) :
    ∀ (ids : List String) (acc : List (String × String) × DSDynamoTable) (k : Nat) (id : String),
      ids[k]? = some id → nthCallFails acc.2 k = true →
        (ids.foldl (enqueueOne C) acc).1.lookup id ≠ none
  | [], _, _, _, h, _ => by simp at h
  | x :: ids, acc, 0, id, h, hf => by
    simp only [List.getElem?_cons_zero, Option.some.injEq] at h
    subst h
    rw [List.foldl_cons]
    exact enqueueLoop_keeps C ids _ x ((enqueueOne_step C acc x).2.2 hf)
  | x :: ids, acc, k + 1, id, h, hf => by
    simp only [List.getElem?_cons_succ] at h
    rw [List.foldl_cons]
    apply enqueueLoop_records C ids _ k id h
    rw [nthCallFails_shift _ acc.2 k (enqueueOne_step C acc x).1]
    exact hf

theorem EnqueueCommand_errs (s : DSDynamoTable) (ids : List String) (C : Command) :
    (EnqueueCommand s ids C).1.1 = (ids.foldl (enqueueOne C) ([], s)).1 := by
  unfold EnqueueCommand
  rcases ids.foldl (enqueueOne C) ([], s) with ⟨a, b⟩
  rfl

theorem AddItem_fails (s : DSDynamoTable) (item : Item) (h : nthCallFails s 0 = true) :
    (AddItem s item).1 ≠ none := by
  obtain ⟨s2, _, hcase⟩ := AddItem_step s item
  rcases hcase with ⟨_, he, _⟩ | ⟨hok, _, _⟩
  · rw [he]; simp
  · rw [h] at hok; exact absurd hok (by decide)

theorem AddItem_faults (s : DSDynamoTable) (item : Item) :
    (AddItem s item).2.faults = s.faults.drop 1 := by
  obtain ⟨s2, hf, hcase⟩ := AddItem_step s item
  rcases hcase with ⟨_, he, _⟩ | ⟨_, he, _⟩ <;> rw [he] <;> exact hf

theorem StoreCommandReport_write_fails (s : DSDynamoTable) (r : Request)
    (report : CommandResults) (c : dsCommand)
    (hidle : report.Status ≠ "Idle") (h0 : nthCallFails s 0 = false)
    (hu : dsCommand.unmarshal (getRow ("queue#" ++ r.ID) report.CommandUUID s.rows) = .ok c)
    (hpay : c.Payload ≠ "") (h1 : nthCallFails s 1 = true) :
    (StoreCommandReport s r report).1 ≠ none := by
  have hq : c.Queue ≠ "QueueDone" := by
    cases hg : getRow ("queue#" ++ r.ID) report.CommandUUID s.rows with
    | none =>
      rw [hg] at hu
      injection hu with hu
      rw [← hu] at hpay
      exact absurd rfl hpay
    | some i =>
      rw [hg] at hu
      have hk := (unmarshal_key i c hu).1
      have hp := List.find?_some hg
      simp only [Bool.and_eq_true, decide_eq_true_eq] at hp
      rw [hk, hp.1]
      exact queue_ne_QueueDone r.ID
  obtain ⟨s2, hf2, _, hcase⟩ := GetSingleItemPKSK_step dsCommand.unmarshal s
    ("queue#" ++ r.ID) report.CommandUUID
  rcases hcase with ⟨hbad, _⟩ | ⟨_, he⟩
  · rw [h0] at hbad; exact absurd hbad (by decide)
  · rw [hu] at he
    have hn : nthCallFails (timeNow s2).2 0 = true := by
      have : nthCallFails (timeNow s2).2 0 = nthCallFails s2 0 := rfl
      rw [this, nthCallFails_shift s2 s 0 hf2]
      exact h1
    simp only [StoreCommandReport, if_neg hidle, he, if_neg hpay, if_neg hq]
    exact AddItem_fails _ _ hn

theorem StoreTokenUpdate_tally_write_fails (s : DSDynamoTable) (r : Request)
    (msg : TokenUpdate) (t : dsTokenUpdateTally)
    (h0 : nthCallFails s 0 = false) (h1 : nthCallFails s 1 = false)
    (h2 : nthCallFails s 2 = false)
    (hu : dsTokenUpdateTally.unmarshal
      (getRow ("device#" ++ r.ID) TokenUpdateTallyFilename s.rows) = .ok t)
    (h3 : nthCallFails s 3 = true) :
    (StoreTokenUpdate s r msg).1 ≠ none := by
  obtain ⟨s1, hf1, hc1⟩ := AddItem_step s
    (dsTokenUnlock.marshal ⟨"device#" ++ r.ID, UnlockTokenFilename, msg.UnlockToken⟩)
  rcases hc1 with ⟨hbad, _⟩ | ⟨_, e1, r1⟩
  · rw [h0] at hbad; exact absurd hbad (by decide)
  obtain ⟨s2, hf2, hc2⟩ := AddItem_step s1
    (dsTokenUpdate.marshal ⟨"device#" ++ r.ID, TokenUpdateFilename, msg.Raw⟩)
  have hn1 : nthCallFails s1 0 = false := by rw [nthCallFails_shift s1 s 0 hf1]; exact h1
  rcases hc2 with ⟨hbad, _⟩ | ⟨_, e2, r2⟩
  · rw [hn1] at hbad; exact absurd hbad (by decide)
  obtain ⟨s3, hf3, _, hc3⟩ := GetSingleItemPKSK_step dsTokenUpdateTally.unmarshal s2
    ("device#" ++ r.ID) TokenUpdateTallyFilename
  have hn2 : nthCallFails s2 0 = false := by
    rw [nthCallFails_shift s2 s1 0 hf2, nthCallFails_shift s1 s 1 hf1]; exact h2
  have hk1 : ¬ ((dsTokenUnlock.marshal
        ⟨"device#" ++ r.ID, UnlockTokenFilename, msg.UnlockToken⟩).pk = "device#" ++ r.ID ∧
      (dsTokenUnlock.marshal ⟨"device#" ++ r.ID, UnlockTokenFilename, msg.UnlockToken⟩).sk
        = TokenUpdateTallyFilename) :=
    fun hc => absurd hc.2 (show ¬ (UnlockTokenFilename = TokenUpdateTallyFilename) by decide)
  have hk2 : ¬ ((dsTokenUpdate.marshal
        ⟨"device#" ++ r.ID, TokenUpdateFilename, msg.Raw⟩).pk = "device#" ++ r.ID ∧
      (dsTokenUpdate.marshal ⟨"device#" ++ r.ID, TokenUpdateFilename, msg.Raw⟩).sk
        = TokenUpdateTallyFilename) :=
    fun hc => absurd hc.2 (show ¬ (TokenUpdateFilename = TokenUpdateTallyFilename) by decide)
  have hget : getRow ("device#" ++ r.ID) TokenUpdateTallyFilename s2.rows
      = getRow ("device#" ++ r.ID) TokenUpdateTallyFilename s.rows := by
    rw [r2, r1, getRow_putRow_other _ _ _ _ hk2, getRow_putRow_other _ _ _ _ hk1]
  rcases hc3 with ⟨hbad, _⟩ | ⟨_, e3⟩
  · rw [hn2] at hbad; exact absurd hbad (by decide)
  rw [hget, hu] at e3
  have hn3 : nthCallFails s3 0 = true := by
    rw [nthCallFails_shift s3 s2 0 hf3, nthCallFails_shift s2 s1 1 hf2,
      nthCallFails_shift s1 s 2 hf1]
    exact h3
  have h4 := AddItem_fails s3 (dsTokenUpdateTally.marshal
    ⟨"device#" ++ r.ID, TokenUpdateTallyFilename, wrapInt64 (t.Tally + 1)⟩) hn3
  simp only [StoreTokenUpdate, e1, e2, e3]
  rcases hA : AddItem s3 (dsTokenUpdateTally.marshal
    ⟨"device#" ++ r.ID, TokenUpdateTallyFilename, wrapInt64 (t.Tally + 1)⟩) with ⟨e, s4⟩
  rw [hA] at h4
  cases e with
  | none => exact absurd rfl h4
  | some err => simp

/-- C13 (amended). A failed backend call is reported as follows.
`EnqueueCommand` records a per-ID error for every ID whose write fails.
`StoreCommandReport` (status other than `Idle`) returns an error when its lookup
fails and when the write of the updated row fails.  `AssociateCertHash` returns
an error when either of its writes fails, `StoreBootstrapToken` when its write
fails, `StoreTokenUpdate` when the write of the unlock token, of the token-update
record or of the tally fails, and `StoreAuthenticate` when its
identity-certificate write fails.  `RetrieveNextCommand` returns no command and
no error when its query fails, and `ClearQueue` and `Disable` return `nil`
whatever their backend calls do. -/
theorem backend_failure_reporting
    (DecodeCommand : String → Option Command × Option String)
    (PEMCertificate Sum256 EncodeToString b64String : String → String)
    (s : DSDynamoTable) (r : Request) :
    (∀ (ids : List String) (C : Command) (k : Nat) (id : String),
      ids[k]? = some id → nthCallFails s k = true →
        (EnqueueCommand s ids C).1.1.lookup id ≠ none) ∧
    (∀ report : CommandResults, report.Status ≠ "Idle" → nthCallFails s 0 = true →
      (StoreCommandReport s r report).1 ≠ none) ∧
    (∀ (report : CommandResults) (c : dsCommand), report.Status ≠ "Idle" →
      nthCallFails s 0 = false →
      dsCommand.unmarshal (getRow ("queue#" ++ r.ID) report.CommandUUID s.rows) = .ok c →
      c.Payload ≠ "" → nthCallFails s 1 = true →
      (StoreCommandReport s r report).1 ≠ none) ∧
    (∀ hash : String, nthCallFails s 0 = true → (AssociateCertHash s r hash).1 ≠ none) ∧
    (∀ hash : String, nthCallFails s 0 = false → nthCallFails s 1 = true →
      (AssociateCertHash s r hash).1 ≠ none) ∧
    (∀ msg : SetBootstrapToken, nthCallFails s 0 = true →
      (StoreBootstrapToken b64String s r msg).1 ≠ none) ∧
    (∀ msg : TokenUpdate, nthCallFails s 0 = true → (StoreTokenUpdate s r msg).1 ≠ none) ∧
    (∀ msg : TokenUpdate, nthCallFails s 0 = false → nthCallFails s 1 = true →
      (StoreTokenUpdate s r msg).1 ≠ none) ∧
    (∀ (msg : TokenUpdate) (t : dsTokenUpdateTally), nthCallFails s 0 = false →
      nthCallFails s 1 = false → nthCallFails s 2 = false →
      dsTokenUpdateTally.unmarshal
        (getRow ("device#" ++ r.ID) TokenUpdateTallyFilename s.rows) = .ok t →
      nthCallFails s 3 = true → (StoreTokenUpdate s r msg).1 ≠ none) ∧
    (∀ msg : Authenticate, nthCallFails s 1 = true →
      (StoreAuthenticate PEMCertificate s r msg).1 ≠ none) ∧
    (∀ skipNotNow : Bool, nthCallFails s 0 = true →
      (RetrieveNextCommand DecodeCommand s r skipNotNow).1 = (none, none)) ∧
    (ClearQueue s r).1 = none ∧
    (Disable Sum256 EncodeToString s r).1 = none := by
  refine ⟨?_, ?_, ?_, ?_, ?_, ?_, ?_, ?_, ?_, ?_, ?_, ?_, rfl⟩
  · intro ids C k id hk hf
    rw [EnqueueCommand_errs]
    exact enqueueLoop_records C ids ([], s) k id hk hf
  · intro report hidle hf
    unfold StoreCommandReport
    rw [if_neg hidle, GetSingleItemPKSK_eq, nextCallFails_eq_nth, hf]
    simp
  · intro report c hidle h0 hu hpay h1
    exact StoreCommandReport_write_fails s r report c hidle h0 hu hpay h1
  · intro hash hf
    have := AddItem_fails s (dynamoDeviceToCertHash.marshal
      ⟨"device#" ++ r.ID, CertHashFile, hash⟩) hf
    unfold AssociateCertHash
    simp only
    rcases hA : AddItem s (dynamoDeviceToCertHash.marshal
      ⟨"device#" ++ r.ID, CertHashFile, hash⟩) with ⟨e, s1⟩
    rw [hA] at this
    cases e with
    | none => exact absurd rfl this
    | some err => simp
  · intro hash h0 h1
    obtain ⟨s1, hf1, hc1⟩ := AddItem_step s (dynamoDeviceToCertHash.marshal
      ⟨"device#" ++ r.ID, CertHashFile, hash⟩)
    rcases hc1 with ⟨hbad, _⟩ | ⟨_, e1, _⟩
    · rw [h0] at hbad; exact absurd hbad (by decide)
    · simp only [AssociateCertHash, e1]
      apply AddItem_fails
      rw [nthCallFails_shift s1 s 0 hf1]
      exact h1
  · intro msg hf
    exact AddItem_fails s _ hf
  · intro msg hf
    have := AddItem_fails s (dsTokenUnlock.marshal
      ⟨"device#" ++ r.ID, UnlockTokenFilename, msg.UnlockToken⟩) hf
    unfold StoreTokenUpdate
    simp only
    rcases hA : AddItem s (dsTokenUnlock.marshal
      ⟨"device#" ++ r.ID, UnlockTokenFilename, msg.UnlockToken⟩) with ⟨e, s1⟩
    rw [hA] at this
    cases e with
    | none => exact absurd rfl this
    | some err => simp
  · intro msg h0 h1
    obtain ⟨s1, hf1, hc1⟩ := AddItem_step s (dsTokenUnlock.marshal
      ⟨"device#" ++ r.ID, UnlockTokenFilename, msg.UnlockToken⟩)
    rcases hc1 with ⟨hbad, _⟩ | ⟨_, e1, _⟩
    · rw [h0] at hbad; exact absurd hbad (by decide)
    · have hn : nthCallFails s1 0 = true := by
        rw [nthCallFails_shift s1 s 0 hf1]; exact h1
      have := AddItem_fails s1 (dsTokenUpdate.marshal
        ⟨"device#" ++ r.ID, TokenUpdateFilename, msg.Raw⟩) hn
      simp only [StoreTokenUpdate, e1]
      rcases hA : AddItem s1 (dsTokenUpdate.marshal
        ⟨"device#" ++ r.ID, TokenUpdateFilename, msg.Raw⟩) with ⟨e, s2⟩
      rw [hA] at this
      cases e with
      | none => exact absurd rfl this
      | some err => simp
  · intro msg t h0 h1 h2 hu h3
    exact StoreTokenUpdate_tally_write_fails s r msg t h0 h1 h2 hu h3
  · intro msg hf
    unfold StoreAuthenticate
    apply AddItem_fails
    rw [nthCallFails_shift _ s 0 (AddItem_faults s _)]
    exact hf
  · intro skipNotNow hf
    unfold RetrieveNextCommand
    rw [getAllCommands_eq, nextCallFails_eq_nth, hf]
    simp
  · unfold ClearQueue
    split <;> rfl

theorem backend_failure_reporting_witness :
    (EnqueueCommand secondCallFails ["ABC-123", "DEF-456"] commandOne).1.1.lookup "DEF-456"
      ≠ none ∧
    (AssociateCertHash failingTable device "h1").1 ≠ none ∧
    (RetrieveNextCommand sampleDecode failingTable device false).1 = (none, none) :=
  have h := backend_failure_reporting sampleDecode samplePEM sampleSum256 sampleHex
    sampleB64String failingTable device
  have h2 := backend_failure_reporting sampleDecode samplePEM sampleSum256 sampleHex
    sampleB64String secondCallFails device
  ⟨h2.1 ["ABC-123", "DEF-456"] commandOne 1 "DEF-456" rfl rfl, h.2.2.2.1 "h1" rfl,
    h.2.2.2.2.2.2.2.2.2.2.1 false rfl⟩

/-- C13 (counterexample). With its query failing, `RetrieveNextCommand` returns
no command and no error although two commands are pending; with its writes
failing, `ClearQueue` returns `nil` and the rows stay pending; with its deletes
failing, `Disable` returns `nil` and the binding stays; with its serial-number
write failing, `StoreAuthenticate` returns `nil`. -/
theorem backend_failures_are_swallowed :
    nextCallFails (withFaults twoQueued [true]) = true ∧
    (RetrieveNextCommand sampleDecode (withFaults twoQueued [true]) device false).1
      = (none, none) ∧
    (ClearQueue (withFaults twoQueued [false, true, true]) device).1 = none ∧
    (ClearQueue (withFaults twoQueued [false, true, true]) device).2.rows = twoQueued.rows ∧
    (Disable sampleSum256 sampleHex (withFaults boundA [true, true]) deviceA).1 = none ∧
    (Disable sampleSum256 sampleHex (withFaults boundA [true, true]) deviceA).2.rows
      = boundA.rows ∧
    (StoreAuthenticate samplePEM (withFaults emptyTable [true]) deviceA ⟨"SERIAL"⟩).1 = none ∧
    getRow "device#ABC-123" "serial"
      (StoreAuthenticate samplePEM (withFaults emptyTable [true]) deviceA ⟨"SERIAL"⟩).2.rows
      = none := by
  decide

theorem wrapInt64_range (m : Int) : -(2 ^ 63) ≤ wrapInt64 m ∧ wrapInt64 m < 2 ^ 63 := by
  unfold wrapInt64
  norm_num
  omega

theorem wrapInt64_id (m : Int) (h1 : -(2 ^ 63) ≤ m) (h2 : m < 2 ^ 63) : wrapInt64 m = m := by
  unfold wrapInt64
  norm_num at h1 h2 ⊢
  omega

theorem tally_unmarshal_marshal (t : dsTokenUpdateTally)
    (h1 : -(2 ^ 63) ≤ t.Tally) (h2 : t.Tally < 2 ^ 63) :
    dsTokenUpdateTally.unmarshal (some t.marshal) = .ok t := by
  cases t with
  | mk d c n =>
    simp only at h1 h2
    norm_num at h1 h2
    by_cases hn : n = 0
    · subst hn
      simp [dsTokenUpdateTally.unmarshal, dsTokenUpdateTally.marshal, Item.attr, decodeInt]
    · simp [dsTokenUpdateTally.unmarshal, dsTokenUpdateTally.marshal, Item.attr, decodeInt, hn,
        List.lookup, h1, h2]

theorem storedTally_range (s : DSDynamoTable) (id : String) (n : Int)
    (h : storedTally s id = .ok n) : -(2 ^ 63) ≤ n ∧ n < 2 ^ 63 := by
  unfold storedTally dsTokenUpdateTally.unmarshal at h
  cases hg : getRow ("device#" ++ id) TokenUpdateTallyFilename s.rows with
  | none =>
    rw [hg] at h
    simp only at h
    injection h with h
    subst h
    norm_num
  | some i =>
    rw [hg] at h
    simp only at h
    unfold decodeInt at h
    split at h
    · rename_i t ht
      split at ht
      · rename_i m hm
        split at hm
        · injection hm with hm; subst hm; injection ht with ht; subst ht
          injection h with h; subst h; norm_num
        · injection hm with hm; subst hm; injection ht with ht; subst ht
          injection h with h; subst h; norm_num
        · split at hm
          · rename_i hr
            injection hm with hm; subst hm; injection ht with ht; subst ht
            injection h with h; subst h; exact hr
          · exact absurd hm (by simp)
        · exact absurd hm (by simp)
        · exact absurd hm (by simp)
      · exact absurd ht (by simp)
    · exact absurd h (by simp)

theorem AddItem_ok (s : DSDynamoTable) (item : Item) (h : Healthy s) :
    ∃ s2, AddItem s item = (none, s2) ∧ s2.rows = putRow item s.rows ∧ Healthy s2 := by
  refine ⟨{ (nextFault s).2 with rows := putRow item s.rows }, ?_, rfl, healthy_nextFault h⟩
  unfold AddItem
  rw [PutItem_eq, healthy_nextCallFails h]
  rfl

theorem GetSingleItemPKSK_ok {α : Type} (unmarshal : Option Item → Except String α)
    (s : DSDynamoTable) (pk sk : String) (v : α) (h : Healthy s)
    (hv : unmarshal (getRow pk sk s.rows) = .ok v) :
    ∃ s2, GetSingleItemPKSK unmarshal s pk sk = (some v, s2) ∧ s2.rows = s.rows ∧ Healthy s2 := by
  refine ⟨(nextFault s).2, ?_, nextFault_rows s, healthy_nextFault h⟩
  rw [GetSingleItemPKSK_eq, healthy_nextCallFails h, hv]
  rfl

/-- On a backend that does not fail, `StoreTokenUpdate` returns `nil` and the
stored tally becomes the successor (in 64-bit arithmetic) of the decoded one. -/
theorem StoreTokenUpdate_healthy (s : DSDynamoTable) (r : Request) (msg : TokenUpdate) (n : Int)
    (h : Healthy s) (hn : storedTally s r.ID = .ok n) :
    (StoreTokenUpdate s r msg).1 = none ∧ Healthy (StoreTokenUpdate s r msg).2 ∧
      storedTally (StoreTokenUpdate s r msg).2 r.ID = .ok (wrapInt64 (n + 1)) := by
  obtain ⟨s1, e1, r1, h1⟩ := AddItem_ok s
    (dsTokenUnlock.marshal ⟨"device#" ++ r.ID, UnlockTokenFilename, msg.UnlockToken⟩) h
  obtain ⟨s2, e2, r2, h2⟩ := AddItem_ok s1
    (dsTokenUpdate.marshal ⟨"device#" ++ r.ID, TokenUpdateFilename, msg.Raw⟩) h1
  have hk1 : ¬ ((dsTokenUnlock.marshal
        ⟨"device#" ++ r.ID, UnlockTokenFilename, msg.UnlockToken⟩).pk = "device#" ++ r.ID ∧
      (dsTokenUnlock.marshal ⟨"device#" ++ r.ID, UnlockTokenFilename, msg.UnlockToken⟩).sk
        = TokenUpdateTallyFilename) :=
    fun hc => absurd hc.2 (show ¬ (UnlockTokenFilename = TokenUpdateTallyFilename) by decide)
  have hk2 : ¬ ((dsTokenUpdate.marshal
        ⟨"device#" ++ r.ID, TokenUpdateFilename, msg.Raw⟩).pk = "device#" ++ r.ID ∧
      (dsTokenUpdate.marshal ⟨"device#" ++ r.ID, TokenUpdateFilename, msg.Raw⟩).sk
        = TokenUpdateTallyFilename) :=
    fun hc => absurd hc.2 (show ¬ (TokenUpdateFilename = TokenUpdateTallyFilename) by decide)
  have hget : getRow ("device#" ++ r.ID) TokenUpdateTallyFilename s2.rows
      = getRow ("device#" ++ r.ID) TokenUpdateTallyFilename s.rows := by
    rw [r2, r1, getRow_putRow_other _ _ _ _ hk2, getRow_putRow_other _ _ _ _ hk1]
  obtain ⟨hr1, hr2⟩ := wrapInt64_range (n + 1)
  unfold storedTally at hn
  cases hu : dsTokenUpdateTally.unmarshal
      (getRow ("device#" ++ r.ID) TokenUpdateTallyFilename s.rows) with
  | error e => rw [hu] at hn; exact absurd hn (by simp)
  | ok t =>
    rw [hu] at hn
    simp only at hn
    injection hn with hn
    have hdec := tally_unmarshal_marshal
      ⟨"device#" ++ r.ID, TokenUpdateTallyFilename, wrapInt64 (t.Tally + 1)⟩
      (by rw [hn]; exact hr1) (by rw [hn]; exact hr2)
    obtain ⟨s3, e3, _, h3⟩ := GetSingleItemPKSK_ok dsTokenUpdateTally.unmarshal s2
      ("device#" ++ r.ID) TokenUpdateTallyFilename t h2 (by rw [hget]; exact hu)
    obtain ⟨s4, e4, r4, h4⟩ := AddItem_ok s3 (dsTokenUpdateTally.marshal
      ⟨"device#" ++ r.ID, TokenUpdateTallyFilename, wrapInt64 (t.Tally + 1)⟩) h3
    have hS : StoreTokenUpdate s r msg = (none, s4) := by
      simp only [StoreTokenUpdate, e1, e2, e3, e4]
    rw [hS]
    refine ⟨rfl, h4, ?_⟩
    unfold storedTally
    simp only
    have hself : getRow ("device#" ++ r.ID) TokenUpdateTallyFilename s4.rows
        = some (dsTokenUpdateTally.marshal
          ⟨"device#" ++ r.ID, TokenUpdateTallyFilename, wrapInt64 (t.Tally + 1)⟩) := by
      rw [r4]
      exact getRow_putRow_self (dsTokenUpdateTally.marshal
        ⟨"device#" ++ r.ID, TokenUpdateTallyFilename, wrapInt64 (t.Tally + 1)⟩) _
    rw [hself, hdec, hn]

theorem afterTokenUpdates_tally (r : Request) :
    ∀ (msgs : List TokenUpdate) (s : DSDynamoTable) (n : Int), Healthy s →
      storedTally s r.ID = .ok n → 0 ≤ n → n + (msgs.length : Int) < 2 ^ 63 →
      Healthy (afterTokenUpdates s r msgs) ∧
        storedTally (afterTokenUpdates s r msgs) r.ID = .ok (n + (msgs.length : Int))
  | [], s, n, h, hn, _, _ => by
    refine ⟨h, ?_⟩
    simpa [afterTokenUpdates] using hn
  | msg :: msgs, s, n, h, hn, h0, hlt => by
    obtain ⟨_, h1, ht⟩ := StoreTokenUpdate_healthy s r msg n h hn
    have hlen : ((msg :: msgs).length : Int) = (msgs.length : Int) + 1 := by simp
    rw [hlen] at hlt
    have hw : wrapInt64 (n + 1) = n + 1 := by
      apply wrapInt64_id
      · norm_num; omega
      · norm_num at hlt ⊢; omega
    rw [hw] at ht
    have ih := afterTokenUpdates_tally r msgs (StoreTokenUpdate s r msg).2 (n + 1) h1 ht
      (by omega) (by omega)
    have hfold : afterTokenUpdates s r (msg :: msgs)
        = afterTokenUpdates (StoreTokenUpdate s r msg).2 r msgs := rfl
    rw [hfold, hlen]
    refine ⟨ih.1, ?_⟩
    rw [ih.2]
    congr 1
    omega

theorem RetrieveTokenUpdateTally_eq (s : DSDynamoTable) (id : String) (n : Int)
    (hcall : nextCallFails s = false) (hn : storedTally s id = .ok n) :
    (RetrieveTokenUpdateTally s id).1
      = (if n = 0 then (0, some "no token tally") else (n, none)) := by
  unfold storedTally at hn
  unfold RetrieveTokenUpdateTally
  rw [GetSingleItemPKSK_eq, hcall]
  cases hu : dsTokenUpdateTally.unmarshal
      (getRow ("device#" ++ id) TokenUpdateTallyFilename s.rows) with
  | error e => rw [hu] at hn; exact absurd hn (by simp)
  | ok t =>
    rw [hu] at hn
    simp only at hn
    injection hn with hn
    subst hn
    by_cases h0 : t.Tally = 0 <;> simp [h0]

theorem storedTally_of_absent (s : DSDynamoTable) (id : String)
    (h : getRow ("device#" ++ id) TokenUpdateTallyFilename s.rows = none) :
    storedTally s id = .ok 0 := by
  unfold storedTally
  rw [h]
  rfl

/-- A `StoreTokenUpdate` whose two record writes succeed and whose tally lookup
fails returns `nil` and leaves the tally row as it was. -/
theorem StoreTokenUpdate_lookup_fails (s : DSDynamoTable) (r : Request) (msg : TokenUpdate)
    (h0 : nthCallFails s 0 = false) (h1 : nthCallFails s 1 = false)
    (h2 : nthCallFails s 2 = true) :
    (StoreTokenUpdate s r msg).1 = none ∧
    getRow ("device#" ++ r.ID) TokenUpdateTallyFilename (StoreTokenUpdate s r msg).2.rows
      = getRow ("device#" ++ r.ID) TokenUpdateTallyFilename s.rows := by
  obtain ⟨s1, hf1, hc1⟩ := AddItem_step s
    (dsTokenUnlock.marshal ⟨"device#" ++ r.ID, UnlockTokenFilename, msg.UnlockToken⟩)
  rcases hc1 with ⟨hbad, _⟩ | ⟨_, e1, r1⟩
  · rw [h0] at hbad; exact absurd hbad (by decide)
  obtain ⟨s2, hf2, hc2⟩ := AddItem_step s1
    (dsTokenUpdate.marshal ⟨"device#" ++ r.ID, TokenUpdateFilename, msg.Raw⟩)
  have hn1 : nthCallFails s1 0 = false := by rw [nthCallFails_shift s1 s 0 hf1]; exact h1
  rcases hc2 with ⟨hbad, _⟩ | ⟨_, e2, r2⟩
  · rw [hn1] at hbad; exact absurd hbad (by decide)
  obtain ⟨s3, _, hr3, hc3⟩ := GetSingleItemPKSK_step dsTokenUpdateTally.unmarshal s2
    ("device#" ++ r.ID) TokenUpdateTallyFilename
  have hn2 : nthCallFails s2 0 = true := by
    rw [nthCallFails_shift s2 s1 0 hf2, nthCallFails_shift s1 s 1 hf1]; exact h2
  have hk1 : ¬ ((dsTokenUnlock.marshal
        ⟨"device#" ++ r.ID, UnlockTokenFilename, msg.UnlockToken⟩).pk = "device#" ++ r.ID ∧
      (dsTokenUnlock.marshal ⟨"device#" ++ r.ID, UnlockTokenFilename, msg.UnlockToken⟩).sk
        = TokenUpdateTallyFilename) :=
    fun hc => absurd hc.2 (show ¬ (UnlockTokenFilename = TokenUpdateTallyFilename) by decide)
  have hk2 : ¬ ((dsTokenUpdate.marshal
        ⟨"device#" ++ r.ID, TokenUpdateFilename, msg.Raw⟩).pk = "device#" ++ r.ID ∧
      (dsTokenUpdate.marshal ⟨"device#" ++ r.ID, TokenUpdateFilename, msg.Raw⟩).sk
        = TokenUpdateTallyFilename) :=
    fun hc => absurd hc.2 (show ¬ (TokenUpdateFilename = TokenUpdateTallyFilename) by decide)
  rcases hc3 with ⟨_, e3⟩ | ⟨hbad, _⟩
  · have hS : StoreTokenUpdate s r msg = (none, s3) := by
      simp only [StoreTokenUpdate, e1, e2, e3]
    rw [hS]
    refine ⟨rfl, ?_⟩
    show getRow ("device#" ++ r.ID) TokenUpdateTallyFilename s3.rows = _
    rw [hr3, r2, r1, getRow_putRow_other _ _ _ _ hk2, getRow_putRow_other _ _ _ _ hk1]
  · rw [hn2] at hbad; exact absurd hbad (by decide)

/-- C15 (amended). For a device whose tally row is absent or decodes to the
integer tally `n` (an absent row or attribute counting as zero): on a backend
whose calls all succeed, `StoreTokenUpdate` returns no error and, `n` being
below the largest `int`, makes the stored tally `n + 1`, so that after `k >= 1`
calls on a device without tally row `RetrieveTokenUpdateTally` returns `k` and no
error; `RetrieveTokenUpdateTally`, its lookup succeeding, fails exactly when `n`
is zero, in particular when no tally row exists.  A `StoreTokenUpdate` whose two
record writes succeed and whose tally lookup fails returns no error and leaves
the tally row as it was. -/
theorem token_update_tally_counts (s : DSDynamoTable) (r : Request) :
    (∀ (msg : TokenUpdate) (n : Int), Healthy s → storedTally s r.ID = .ok n →
      n + 1 < 2 ^ 63 →
      (StoreTokenUpdate s r msg).1 = none ∧
        storedTally (StoreTokenUpdate s r msg).2 r.ID = .ok (n + 1)) ∧
    (∀ msgs : List TokenUpdate, Healthy s →
      getRow ("device#" ++ r.ID) TokenUpdateTallyFilename s.rows = none → msgs ≠ [] →
      (msgs.length : Int) < 2 ^ 63 →
      (RetrieveTokenUpdateTally (afterTokenUpdates s r msgs) r.ID).1
        = ((msgs.length : Int), none)) ∧
    (∀ n : Int, nextCallFails s = false → storedTally s r.ID = .ok n →
      ((RetrieveTokenUpdateTally s r.ID).1.2 ≠ none ↔ n = 0) ∧
      (n ≠ 0 → (RetrieveTokenUpdateTally s r.ID).1 = (n, none))) ∧
    (nextCallFails s = false →
      getRow ("device#" ++ r.ID) TokenUpdateTallyFilename s.rows = none →
      (RetrieveTokenUpdateTally s r.ID).1 = (0, some "no token tally")) ∧
    (∀ msg : TokenUpdate, nthCallFails s 0 = false → nthCallFails s 1 = false →
      nthCallFails s 2 = true →
      (StoreTokenUpdate s r msg).1 = none ∧
      getRow ("device#" ++ r.ID) TokenUpdateTallyFilename (StoreTokenUpdate s r msg).2.rows
        = getRow ("device#" ++ r.ID) TokenUpdateTallyFilename s.rows) := by
  refine ⟨?_, ?_, ?_, ?_, ?_⟩
  · intro msg n h hn hlt
    obtain ⟨h1, _, h3⟩ := StoreTokenUpdate_healthy s r msg n h hn
    have hw : wrapInt64 (n + 1) = n + 1 := by
      apply wrapInt64_id
      · have := (storedTally_range s r.ID n hn).1
        norm_num at this ⊢; omega
      · exact hlt
    rw [hw] at h3
    exact ⟨h1, h3⟩
  · intro msgs h habs hne hlt
    obtain ⟨h1, h2⟩ := afterTokenUpdates_tally r msgs s 0 h (storedTally_of_absent s r.ID habs)
      (le_refl 0) (by rw [zero_add]; exact hlt)
    rw [zero_add] at h2
    rw [RetrieveTokenUpdateTally_eq _ r.ID _ (healthy_nextCallFails h1) h2]
    have : (msgs.length : Int) ≠ 0 := by
      cases msgs with
      | nil => exact absurd rfl hne
      | cons m ms => simp; omega
    simp [this]
  · intro n hcall hn
    rw [RetrieveTokenUpdateTally_eq s r.ID n hcall hn]
    by_cases h0 : n = 0 <;> simp [h0]
  · intro hcall habs
    rw [RetrieveTokenUpdateTally_eq s r.ID 0 hcall (storedTally_of_absent s r.ID habs)]
    rfl
  · intro msg h0 h1 h2
    exact StoreTokenUpdate_lookup_fails s r msg h0 h1 h2

theorem token_update_tally_counts_witness :
    (RetrieveTokenUpdateTally
      (afterTokenUpdates emptyTable device [⟨"unlock", "raw-1"⟩, ⟨"unlock", "raw-2"⟩])
      "ABC-123").1 = (2, none) ∧
    (StoreTokenUpdate thirdCallFails device ⟨"unlock", "raw"⟩).1 = none :=
  ⟨(token_update_tally_counts emptyTable device).2.1
      [⟨"unlock", "raw-1"⟩, ⟨"unlock", "raw-2"⟩] (fun b hb => absurd hb (List.not_mem_nil b))
      rfl (by decide) (by decide),
    ((token_update_tally_counts thirdCallFails device).2.2.2.2 ⟨"unlock", "raw"⟩
      rfl rfl rfl).1⟩

/-- C15 (counterexample). With the lookup of the tally row failing,
`StoreTokenUpdate` returns no error and writes no tally: the stored tally is zero
before and after, and `RetrieveTokenUpdateTally` fails afterwards. -/
theorem token_update_without_tally_increment :
    (StoreTokenUpdate thirdCallFails device ⟨"unlock", "raw"⟩).1 = none ∧
    storedTally thirdCallFails "ABC-123" = .ok 0 ∧
    storedTally (StoreTokenUpdate thirdCallFails device ⟨"unlock", "raw"⟩).2 "ABC-123"
      = .ok 0 ∧
    getRow "device#ABC-123" TokenUpdateTallyFilename
      (StoreTokenUpdate thirdCallFails device ⟨"unlock", "raw"⟩).2.rows = none ∧
    (RetrieveTokenUpdateTally (StoreTokenUpdate thirdCallFails device ⟨"unlock", "raw"⟩).2
      "ABC-123").1 = (0, some "no token tally") :=
  ⟨by decide, rfl, rfl, by decide, by decide⟩

end Dynamo
